import Mathlib

/-!
Verification of the `dashboard` ETL / dimensional-load core.

The development shallowly embeds the Python sources:
  * `src/etl.py`    — validators (`DataValidator`), transformers (`DataTransformer`),
                      the three ETL classes and the expiration metrics;
  * `src/db.py`     — `DataLoader.load_dim_tempo`, `load_funcionarios`,
                      `load_absenteismo`, `DataLoader._parse_date`;
  * `src/sqlalchemy_models.py` — the column defaults and uniqueness constraints
                      that matter for the load semantics (`DimFuncionario`'s SCD
                      control columns, `DimTempo.data_completa` being unique).

Python strings are embedded as lists of character codes (`Str := List Nat`),
Python `date` objects as `PyDate`, `None` as `Option.none`, and a raised
exception as `Except.error`.  Functions are translated statement by statement
from the source; where a Python construct could raise (dictionary bracket
access on a missing key, comparison of `None` with a `date`), the embedding
returns `Except.error`, mirroring the fact that in `db.py` such an exception
aborts the whole load unit (the surrounding `try` does `rollback` and
re-`raise`s).
-/

/-! ## Character-code strings -/

/-- A Python string, embedded as its list of character codes. -/
abbrev Str := List Nat

/-- Character codes of a Lean string literal (used to connect concrete
test inputs such as `"11144477735"` to the embedding). -/
def ofString (s : String) : Str := s.data.map Char.toNat

/-- ASCII digit test: the embedding of the regex class `\d` (the source data
is ASCII; the regex `\D` used by `re.sub(r'\D', '', ...)` removes exactly the
non-digit characters). -/
def isDigitCode (c : Nat) : Bool := 48 ≤ c && c ≤ 57

/-- Numeric value of a digit string read left to right (what `int(...)`
returns on a digit-only string). -/
def natVal (ds : Str) : Nat := ds.foldl (fun a c => a * 10 + (c - 48)) 0

/-! ## Python dates -/

/-- A Python `datetime.date`: year, month, day.  `date` objects satisfying
`isValidDate` are exactly the constructible ones (`datetime.MINYEAR = 1`,
`MAXYEAR = 9999`). -/
structure PyDate where
  year : Nat
  month : Nat
  day : Nat
deriving DecidableEq, Repr

/-- Gregorian leap-year rule (as `calendar.isleap`). -/
def isLeapYear (y : Nat) : Bool := (y % 4 == 0 && y % 100 != 0) || y % 400 == 0

/-- Number of days in a month. -/
def daysInMonth (y m : Nat) : Nat :=
  if m = 2 then (if isLeapYear y then 29 else 28)
  else if m = 4 ∨ m = 6 ∨ m = 9 ∨ m = 11 then 30
  else 31

/-- The dates representable as Python `date` objects. -/
def isValidDate (d : PyDate) : Bool :=
  1 ≤ d.year && d.year ≤ 9999 && 1 ≤ d.month && d.month ≤ 12 &&
  1 ≤ d.day && d.day ≤ daysInMonth d.year d.month

/-- Python `date` comparison `d1 <= d2` (lexicographic on year, month, day). -/
def dateLe (a b : PyDate) : Bool :=
  a.year < b.year ||
  (a.year == b.year && (a.month < b.month ||
    (a.month == b.month && a.day ≤ b.day)))

/-- Days from a fixed epoch to the first day of year `y` (the standard
proleptic Gregorian ordinal used by `date.toordinal`). -/
def daysBeforeYear (y : Nat) : Nat :=
  (y - 1) * 365 + (y - 1) / 4 - (y - 1) / 100 + (y - 1) / 400

/-- Days in year `y` that precede month `m`. -/
def daysBeforeMonth (y m : Nat) : Nat :=
  (List.range (m - 1)).foldl (fun a i => a + daysInMonth y (i + 1)) 0

/-- `date.toordinal`: day number of `d` in the proleptic Gregorian calendar.
Subtracting two ordinals is what `(d1 - d2).days` computes in Python. -/
def toOrdinal (d : PyDate) : Nat :=
  daysBeforeYear d.year + daysBeforeMonth d.year d.month + d.day

/-! ## `DataValidator` (src/etl.py lines 10-84)

Each validator is translated clause by clause.  `validate_cpf`,
`validate_cnpj` and `validate_email` can never raise on an
optional-string input (the falsy guard runs first), so their embeddings
are plain `Bool`-valued functions; `validate_date_range` compares
`start_date <= end_date` without guarding `start_date`, so its embedding
is `Except`-valued: comparing `None` with a `date` is a `TypeError`. -/

/-- `re.sub(r'\D', '', s)` followed by reading each kept character as a
digit: digit values of the string with non-digits stripped. -/
def stripDigits (s : Str) : List Nat :=
  (s.filter isDigitCode).map (fun c => c - 48)

/-- `calculate_digit(cpf_partial)` from `validate_cpf`: weighted sum with
weight `len(partial) + 1 - i` for the digit at index `i`, reduced mod 11;
a remainder below 2 maps to 0, anything else to `11 - remainder`. -/
def checkDigitCPF (ds : List Nat) : Nat :=
  let n := ds.length
  let total := (ds.enum.map (fun p => p.2 * (n + 1 - p.1))).foldl (· + ·) 0
  let r := total % 11
  if r < 2 then 0 else 11 - r

/-- `DataValidator.validate_cpf` (etl.py lines 13-40).  The final Python
comparison `cpf[-2:] == f"{first_digit}{second_digit}"` is a comparison of
two 2-character strings whose characters are single digits (both computed
digits lie in 0..9), hence it equals the pair of digit equalities below. -/
def validate_cpf (s : Str) : Bool :=
  if s.isEmpty then false
  else
    let ds := stripDigits s
    if ds.length ≠ 11 then false
    else if ds == List.replicate 11 (ds.headD 0) then false
    else
      let d1 := checkDigitCPF (ds.take 9)
      let d2 := checkDigitCPF (ds.take 10)
      ds.getD 9 0 == d1 && ds.getD 10 0 == d2

/-- `calculate_digit(cnpj_partial, weights)` from `validate_cnpj`. -/
def checkDigitCNPJ (ds weights : List Nat) : Nat :=
  let total := (ds.zip weights).foldl (fun a p => a + p.1 * p.2) 0
  let r := total % 11
  if r < 2 then 0 else 11 - r

/-- `DataValidator.validate_cnpj` (etl.py lines 42-68). -/
def validate_cnpj (s : Str) : Bool :=
  if s.isEmpty then false
  else
    let ds := stripDigits s
    if ds.length ≠ 14 then false
    else
      let w1 : List Nat := [5, 4, 3, 2, 9, 8, 7, 6, 5, 4, 3, 2]
      let w2 : List Nat := [6, 7, 8, 9, 2, 3, 4, 5, 6, 7, 8, 9]
      let d1 := checkDigitCNPJ (ds.take 12) w1
      let d2 := checkDigitCNPJ (ds.take 13) w2
      ds.getD 12 0 == d1 && ds.getD 13 0 == d2

/-- One character of the local part of an email:
`[a-zA-Z0-9._%+-]`. -/
def emailLocalChar (c : Nat) : Bool :=
  (97 ≤ c && c ≤ 122) || (65 ≤ c && c ≤ 90) || isDigitCode c ||
  c == 46 || c == 95 || c == 37 || c == 43 || c == 45

/-- One character of the domain part: `[a-zA-Z0-9.-]`. -/
def emailDomainChar (c : Nat) : Bool :=
  (97 ≤ c && c ≤ 122) || (65 ≤ c && c ≤ 90) || isDigitCode c ||
  c == 46 || c == 45

/-- An ASCII letter, for the TLD class `[a-zA-Z]`. -/
def emailAlphaChar (c : Nat) : Bool :=
  (97 ≤ c && c ≤ 122) || (65 ≤ c && c ≤ 90)

/-- Match of `^[a-zA-Z0-9._%+-]+@[a-zA-Z0-9.-]+\.[a-zA-Z]{2,}$` via
`re.match` (anchored on both sides by the trailing `$`).  The match exists
iff the string splits as `local ++ "@" ++ domain ++ "." ++ tld` with a
non-empty local part, non-empty domain part and a TLD of at least two
letters; since `.` is itself in the domain class, this is equivalent to:
everything before the first `@` is non-empty local-class, there is exactly
one `@`, and after it the string ends in `... "." tld` with the part before
the last dot non-empty domain-class.  The executable embedding below
searches for such a split directly. -/
def emailSplitOk (cs : Str) : Bool :=
  -- all ways to cut `cs` at an `@`: local | rest
  (List.range cs.length).any (fun i =>
    cs.getD i 0 == 64 &&
    (cs.take i).all emailLocalChar && !(cs.take i).isEmpty &&
    -- inside the remainder, cut at a final dot: domain | tld
    (let rest := cs.drop (i + 1)
     (List.range rest.length).any (fun j =>
       rest.getD j 0 == 46 &&
       (rest.take j).all emailDomainChar && !(rest.take j).isEmpty &&
       (rest.drop (j + 1)).all emailAlphaChar && 2 ≤ rest.length - (j + 1))))

/-- `DataValidator.validate_email` (etl.py lines 70-77): empty or absent is
valid, otherwise the conservative pattern must match. -/
def validate_email (s : Str) : Bool :=
  if s.isEmpty then true else emailSplitOk s

/-- `DataValidator.validate_date_range` (etl.py lines 79-84) as invoked
dynamically: the annotation declares `start_date: date`, but callers pass
`row.get(...)`, which may be `None`.  `if not end_date: return True` guards
only the end; `start_date <= end_date` with `start_date = None` raises
`TypeError`, embedded as `Except.error ()`. -/
def validate_date_range (start_date : Option PyDate) (end_date : Option PyDate) :
    Except Unit Bool :=
  match end_date with
  | none => .ok true
  | some e =>
    match start_date with
    | none => .error ()
    | some s => .ok (dateLe s e)

/-- `validate_cpf` on an optional input: `if not cpf: return False` makes the
absent case `False` before any string operation runs. -/
def validateCpfOpt (s : Option Str) : Bool :=
  match s with
  | none => false
  | some s => validate_cpf s

/-- `validate_cnpj` on an optional input. -/
def validateCnpjOpt (s : Option Str) : Bool :=
  match s with
  | none => false
  | some s => validate_cnpj s

/-- `validate_email` on an optional input: `if not email: return True`. -/
def validateEmailOpt (s : Option Str) : Bool :=
  match s with
  | none => true
  | some s => validate_email s

/-! ## `VencimentoETL._calculate_vencimento_metrics` (etl.py lines 450-482)

`dias_para_vencimento` is `(venc_date - today).days` when the expiry date
is present and `None` (pandas `NaN`) otherwise.  The three boolean flag
columns and the `categorize_status` classifier follow; a pandas comparison
against `NaN` yields `False`, which is why each flag is `false` on an
absent day count. -/

/-- The mutually exclusive values of `status_vencimento` produced by
`categorize_status`.  Spec names: `VENCIDO` = EXPIRED, `CRITICO` = CRITICAL,
`ATENCAO` = WARNING_HIGH, `ALERTA` = WARNING_LOW, `OK` = OK,
`SEM_DATA` = NO_DATE. -/
inductive StatusVencimento where
  | SEM_DATA
  | VENCIDO
  | CRITICO
  | ATENCAO
  | ALERTA
  | OK
deriving DecidableEq, Repr

/-- `dias_para_vencimento`: signed day difference `expiry - today`, absent
when the expiry date is absent. -/
def diasParaVencimento (venc : Option PyDate) (today : PyDate) : Option Int :=
  venc.map (fun v => (toOrdinal v : Int) - (toOrdinal today : Int))

/-- Column `vencido`: `dias_para_vencimento < 0` (pandas semantics:
`False` on `NaN`). -/
def vencidoFlag (dias : Option Int) : Bool :=
  match dias with
  | none => false
  | some d => d < 0

/-- Column `critico`: `(dias >= 0) & (dias <= 30)`. -/
def criticoFlag (dias : Option Int) : Bool :=
  match dias with
  | none => false
  | some d => 0 ≤ d && d ≤ 30

/-- Column `alerta`: `(dias > 30) & (dias <= 60)`. -/
def alertaFlag (dias : Option Int) : Bool :=
  match dias with
  | none => false
  | some d => 30 < d && d ≤ 60

/-- `categorize_status` (etl.py lines 466-478). -/
def categorizeStatus (dias : Option Int) : StatusVencimento :=
  match dias with
  | none => .SEM_DATA
  | some d =>
    if d < 0 then .VENCIDO
    else if d ≤ 15 then .CRITICO
    else if d ≤ 30 then .ATENCAO
    else if d ≤ 60 then .ALERTA
    else .OK

/-! ## Claims about the validators and expiration metrics -/

/-- C6: `validate_cpf` strips non-digits and accepts exactly the inputs
whose stripped digit string has length 11, is not eleven copies of one
digit, and whose trailing two digits equal the two computed check digits
(weighted sum mod 11, descending positional weights, remainder below 2
mapped to 0 and otherwise to 11 minus the remainder); the known-valid id
`"11144477735"` is accepted and every single-digit mutation of it is
rejected. -/
theorem validate_cpf_characterization :
    (∀ s : Str, validate_cpf s = true ↔
      (stripDigits s).length = 11 ∧
      stripDigits s ≠ List.replicate 11 ((stripDigits s).headD 0) ∧
      (stripDigits s).getD 9 0 = checkDigitCPF ((stripDigits s).take 9) ∧
      (stripDigits s).getD 10 0 = checkDigitCPF ((stripDigits s).take 10)) ∧
    validate_cpf (ofString "11144477735") = true ∧
    ((List.range 11).all fun i => (List.range 10).all fun g =>
      (48 + g == (ofString "11144477735").getD i 0) ||
      (validate_cpf ((ofString "11144477735").set i (48 + g)) == false)) = true := by
  refine ⟨?_, by decide, by decide⟩
  intro s
  simp only [validate_cpf]
  split_ifs with h1 h2 h3
  · rw [List.isEmpty_iff] at h1
    subst h1
    simp [stripDigits]
  · simp only [Bool.false_eq_true, false_iff]
    rintro ⟨hlen, -⟩
    exact h2 hlen
  · simp only [beq_iff_eq] at h3
    simp only [Bool.false_eq_true, false_iff]
    rintro ⟨-, hne, -⟩
    exact hne h3
  · simp only [beq_iff_eq] at h3
    rw [Bool.and_eq_true, beq_iff_eq, beq_iff_eq]
    constructor
    · rintro ⟨e1, e2⟩
      exact ⟨not_not.mp h2, h3, e1, e2⟩
    · rintro ⟨-, -, e1, e2⟩
      exact ⟨e1, e2⟩

/-- C8: `dias_para_vencimento` is the signed day difference between the
expiry date and today (absent expiry giving an absent count, its own
`SEM_DATA` terminal category, never compared numerically), and
`categorize_status` classifies exactly by the thresholds: below 0 expired
(`VENCIDO`), 0-15 critical (`CRITICO`), 16-30 `ATENCAO`, 31-60 `ALERTA`,
above 60 `OK` — checked in particular at -1, 0, 15, 16, 30, 31, 60, 61 and
the absent value. -/
theorem vencimento_classification :
    (∀ (v t : PyDate), diasParaVencimento (some v) t =
        some ((toOrdinal v : Int) - (toOrdinal t : Int))) ∧
    (∀ t : PyDate, diasParaVencimento none t = none) ∧
    categorizeStatus none = .SEM_DATA ∧
    (∀ d : Int,
      (categorizeStatus (some d) = .VENCIDO ↔ d < 0) ∧
      (categorizeStatus (some d) = .CRITICO ↔ 0 ≤ d ∧ d ≤ 15) ∧
      (categorizeStatus (some d) = .ATENCAO ↔ 16 ≤ d ∧ d ≤ 30) ∧
      (categorizeStatus (some d) = .ALERTA ↔ 31 ≤ d ∧ d ≤ 60) ∧
      (categorizeStatus (some d) = .OK ↔ 60 < d)) ∧
    categorizeStatus (some (-1)) = .VENCIDO ∧
    categorizeStatus (some 0) = .CRITICO ∧
    categorizeStatus (some 15) = .CRITICO ∧
    categorizeStatus (some 16) = .ATENCAO ∧
    categorizeStatus (some 30) = .ATENCAO ∧
    categorizeStatus (some 31) = .ALERTA ∧
    categorizeStatus (some 60) = .ALERTA ∧
    categorizeStatus (some 61) = .OK := by
  refine ⟨fun v t => rfl, fun t => rfl, rfl, ?_, by decide, by decide, by decide,
    by decide, by decide, by decide, by decide, by decide⟩
  intro d
  simp only [categorizeStatus]
  split_ifs <;> refine ⟨?_, ?_, ?_, ?_, ?_⟩ <;> simp <;> omega

/-- C9 counterexample: `validate_date_range` applied to an absent start
date and a present end date does not return a boolean — the comparison
`start_date <= end_date` with `start_date = None` raises a `TypeError`,
refuting the claim that every validator is total over optional input. -/
theorem validate_date_range_raises_on_absent_start :
    validate_date_range none (some ⟨2024, 1, 1⟩) = .error () := rfl

/-- C9 (amended): `validate_national_id`, `validate_org_id` and
`validate_email` are total over optional input (absent input yields
`false`, `false`, `true` respectively, before any string operation runs),
and `validate_date_order` raises exactly when the start is absent while
the end is present; on every other input it returns a boolean. -/
theorem validators_totality_amended :
    (∀ s e : Option PyDate,
      validate_date_range s e = .error () ↔ s = none ∧ e ≠ none) ∧
    (∀ s e : Option PyDate, (s = none ∧ e ≠ none) ∨
      ∃ b, validate_date_range s e = .ok b) ∧
    validateCpfOpt none = false ∧
    validateCnpjOpt none = false ∧
    validateEmailOpt none = true := by
  refine ⟨?_, ?_, rfl, rfl, rfl⟩
  · intro s e
    cases s <;> cases e <;> simp [validate_date_range]
  · intro s e
    cases s <;> cases e <;> simp [validate_date_range]

/-- C10: the derived `critico` flag is true exactly when the day count is
present and between 0 and 30; in particular for a day count in 16-30 the
flag is set while `categorize_status` puts the same row in the `ATENCAO`
(16-30) category rather than `CRITICO` — the flag threshold and the status
threshold are different predicates. -/
theorem criticoFlag_vs_status :
    (∀ od : Option Int,
      criticoFlag od = true ↔ ∃ d, od = some d ∧ 0 ≤ d ∧ d ≤ 30) ∧
    (∀ d : Int, 16 ≤ d → d ≤ 30 →
      criticoFlag (some d) = true ∧ categorizeStatus (some d) = .ATENCAO) ∧
    StatusVencimento.ATENCAO ≠ StatusVencimento.CRITICO := by
  refine ⟨?_, ?_, by decide⟩
  · intro od
    cases od with
    | none => simp [criticoFlag]
    | some d =>
      simp only [criticoFlag, Bool.and_eq_true, decide_eq_true_eq, Option.some.injEq]
      constructor
      · rintro ⟨u1, u2⟩
        exact ⟨d, rfl, u1, u2⟩
      · rintro ⟨d2, hd, u1, u2⟩
        subst hd
        exact ⟨u1, u2⟩
  · intro d h1 h2
    refine ⟨by simp [criticoFlag]; omega, ?_⟩
    simp only [categorizeStatus]
    split_ifs <;> first | rfl | omega

/-- C10 witness: at a concrete day count of 20 the flag is set and the
status is `ATENCAO`. -/
theorem criticoFlag_vs_status_witness :
    criticoFlag (some 20) = true ∧ categorizeStatus (some 20) = .ATENCAO :=
  criticoFlag_vs_status.2.1 20 (by norm_num) (by norm_num)

/-! ## Date parsing (`DataTransformer.parse_date`, etl.py lines 134-166, and
`DataLoader._parse_date`, db.py lines 292-311)

Both functions call `datetime.strptime(value, fmt)` over an ordered list of
format strings and return the date of the first success, `None` when every
format fails or the input is absent/empty.  CPython's `_strptime` compiles
each directive to a regular expression fragment: `%d` matches
`3[01]|[12]\d|0[1-9]|[1-9]` (one or two digits, value 1-31), `%m` matches
`1[0-2]|0[1-9]|[1-9]` (one or two digits, value 1-12), `%Y` matches exactly
four digits, and `%y` exactly two digits, mapped to 2000-2068 when below 69
and to 1969-1999 otherwise; the whole string must be consumed, and the
assembled year/month/day triple must form a constructible `date`, else the
attempt raises `ValueError` and the next format is tried. -/

/-- Split off the maximal prefix free of the separator. -/
def takeUntil (sep : Nat) (cs : Str) : Str × Str :=
  (cs.takeWhile (fun c => c != sep), cs.dropWhile (fun c => c != sep))

/-- Decompose `cs` as `a ++ sep :: b ++ sep :: c` at the first two
separator occurrences.  The compiled regex of a three-field separated
format forces exactly this decomposition: a field class matches only
digits, never the separator, and a maximal digit run cannot be split by
the field because the character after the field must be the separator. -/
def split3 (sep : Nat) (cs : Str) : Option (Str × Str × Str) :=
  let p1 := takeUntil sep cs
  match p1.2 with
  | _ :: r2 =>
    let p2 := takeUntil sep r2
    match p2.2 with
    | _ :: r3 => some (p1.1, p2.1, r3)
    | [] => none
  | [] => none

/-- The `%d` field: `3[01]|[12]\d|0[1-9]|[1-9]`, i.e. one digit 1-9 or two
digits 01-31, consumed entirely. -/
def fieldDay (ds : Str) : Option Nat :=
  if ds.all isDigitCode then
    let v := natVal ds
    if (ds.length == 1 && 1 ≤ v && v ≤ 9) || (ds.length == 2 && 1 ≤ v && v ≤ 31) then
      some v
    else none
  else none

/-- The `%m` field: `1[0-2]|0[1-9]|[1-9]`. -/
def fieldMonth (ds : Str) : Option Nat :=
  if ds.all isDigitCode then
    let v := natVal ds
    if (ds.length == 1 && 1 ≤ v && v ≤ 9) || (ds.length == 2 && 1 ≤ v && v ≤ 12) then
      some v
    else none
  else none

/-- The `%Y` field: exactly four digits. -/
def fieldYear4 (ds : Str) : Option Nat :=
  if ds.all isDigitCode && ds.length == 4 then some (natVal ds) else none

/-- The `%y` field: exactly two digits, with CPython's century mapping
(below 69 becomes 2000-2068, otherwise 1969-1999). -/
def fieldYear2 (ds : Str) : Option Nat :=
  if ds.all isDigitCode && ds.length == 2 then
    let v := natVal ds
    some (if v < 69 then 2000 + v else 1900 + v)
  else none

/-- `datetime.date(y, m, d)` as invoked by `strptime`: `None` when the
triple is not a constructible date (`ValueError`, making `strptime` move
on to the next format). -/
def mkValidDate (y m d : Nat) : Option PyDate :=
  if isValidDate ⟨y, m, d⟩ then some ⟨y, m, d⟩ else none

/-- `strptime` with `%d/%m/%Y`. -/
def strptimeDMYSlash (cs : Str) : Option PyDate :=
  match split3 47 cs with
  | some (a, b, c) =>
    match fieldDay a, fieldMonth b, fieldYear4 c with
    | some d, some m, some y => mkValidDate y m d
    | _, _, _ => none
  | none => none

/-- `strptime` with `%Y-%m-%d`. -/
def strptimeYMDDash (cs : Str) : Option PyDate :=
  match split3 45 cs with
  | some (a, b, c) =>
    match fieldYear4 a, fieldMonth b, fieldDay c with
    | some y, some m, some d => mkValidDate y m d
    | _, _, _ => none
  | none => none

/-- `strptime` with `%d-%m-%Y`. -/
def strptimeDMYDash (cs : Str) : Option PyDate :=
  match split3 45 cs with
  | some (a, b, c) =>
    match fieldDay a, fieldMonth b, fieldYear4 c with
    | some d, some m, some y => mkValidDate y m d
    | _, _, _ => none
  | none => none

/-- `strptime` with `%Y%m%d`: four digits of year, then the month field —
its two-digit regex alternatives are tried before the one-digit one, and
only a failure of the remaining *regex* (not of date construction)
backtracks — with the day field consuming the whole remainder. -/
def strptimeYMDCompact (cs : Str) : Option PyDate :=
  match cs with
  | y1 :: y2 :: y3 :: y4 :: rest =>
    if isDigitCode y1 && isDigitCode y2 && isDigitCode y3 && isDigitCode y4 then
      let y := natVal [y1, y2, y3, y4]
      let fields2 : Option (Nat × Nat) :=
        match rest with
        | m1 :: m2 :: rest2 =>
          match fieldMonth [m1, m2], fieldDay rest2 with
          | some m, some d => some (m, d)
          | _, _ => none
        | _ => none
      match fields2 with
      | some (m, d) => mkValidDate y m d
      | none =>
        match rest with
        | m1 :: rest2 =>
          match fieldMonth [m1], fieldDay rest2 with
          | some m, some d => mkValidDate y m d
          | _, _ => none
        | _ => none
    else none
  | _ => none

/-- `strptime` with `%d/%m/%y`. -/
def strptimeDMYSlashY2 (cs : Str) : Option PyDate :=
  match split3 47 cs with
  | some (a, b, c) =>
    match fieldDay a, fieldMonth b, fieldYear2 c with
    | some d, some m, some y => mkValidDate y m d
    | _, _, _ => none
  | none => none

/-- `strptime` with `%Y/%m/%d`. -/
def strptimeYMDSlash (cs : Str) : Option PyDate :=
  match split3 47 cs with
  | some (a, b, c) =>
    match fieldYear4 a, fieldMonth b, fieldDay c with
    | some y, some m, some d => mkValidDate y m d
    | _, _, _ => none
  | none => none

/-- First-success-wins combinator for the ordered format attempts. -/
def firstSome (a b : Option PyDate) : Option PyDate :=
  match a with
  | some x => some x
  | none => b

/-- `DataTransformer.parse_date` on a string: the six formats of
etl.py lines 151-158 in source order.  (On an empty string every format
fails, which coincides with the `date_value == ''` early return.) -/
def parse_date (cs : Str) : Option PyDate :=
  firstSome (strptimeDMYSlash cs)
    (firstSome (strptimeYMDDash cs)
      (firstSome (strptimeDMYDash cs)
        (firstSome (strptimeYMDCompact cs)
          (firstSome (strptimeDMYSlashY2 cs) (strptimeYMDSlash cs)))))

/-- `parse_date` on an optional input: `pd.isna`, `''` and `None` all give
`None`. -/
def parseDateOpt (cs : Option Str) : Option PyDate :=
  match cs with
  | none => none
  | some cs => parse_date cs

/-- `DataLoader._parse_date` (db.py lines 292-311): only three formats,
`%Y-%m-%d`, `%d/%m/%Y`, `%Y%m%d`, in that order; absent or unparseable
input yields `None`. -/
def db_parse_date (cs : Option Str) : Option PyDate :=
  match cs with
  | none => none
  | some cs =>
    firstSome (strptimeYMDDash cs)
      (firstSome (strptimeDMYSlash cs) (strptimeYMDCompact cs))

/-! ## Date formatting (`strftime`, for the round-trip claim)

`%d`, `%m` and `%y` are zero-padded to two digits; `%Y` renders a year
1000-9999 as its four digits (glibc renders smaller years with fewer
digits, so the formatting model — and the round-trip statements — are for
four-digit years; the two-digit `%y` format carries no such restriction). -/

/-- Zero-padded two-digit rendering. -/
def pad2 (n : Nat) : Str := [48 + n / 10 % 10, 48 + n % 10]

/-- Four-digit rendering of a year. -/
def pad4 (n : Nat) : Str :=
  [48 + n / 1000 % 10, 48 + n / 100 % 10, 48 + n / 10 % 10, 48 + n % 10]

/-- The six formats supported by `parse_date`, in source order. -/
inductive DateFmt where
  | DMYSlash
  | YMDDash
  | DMYDash
  | YMDCompact
  | DMYSlashY2
  | YMDSlash
deriving DecidableEq, Repr

/-- `d.strftime(f)` for each supported format. -/
def formatDate (f : DateFmt) (d : PyDate) : Str :=
  match f with
  | .DMYSlash => pad2 d.day ++ 47 :: (pad2 d.month ++ 47 :: pad4 d.year)
  | .YMDDash => pad4 d.year ++ 45 :: (pad2 d.month ++ 45 :: pad2 d.day)
  | .DMYDash => pad2 d.day ++ 45 :: (pad2 d.month ++ 45 :: pad4 d.year)
  | .YMDCompact => pad4 d.year ++ (pad2 d.month ++ pad2 d.day)
  | .DMYSlashY2 => pad2 d.day ++ 47 :: (pad2 d.month ++ 47 :: pad2 (d.year % 100))
  | .YMDSlash => pad4 d.year ++ 47 :: (pad2 d.month ++ 47 :: pad2 d.day)

/-! ### Supporting lemmas for the round-trip analysis -/

lemma pad2_digits (n : Nat) : (pad2 n).all isDigitCode = true := by
  simp only [pad2, List.all_cons, List.all_nil, isDigitCode, Bool.and_eq_true,
    decide_eq_true_eq, Bool.and_true]
  omega

lemma pad4_digits (n : Nat) : (pad4 n).all isDigitCode = true := by
  simp only [pad4, List.all_cons, List.all_nil, isDigitCode, Bool.and_eq_true,
    decide_eq_true_eq, Bool.and_true]
  omega

lemma pad2_mem_ge (n c : Nat) (hc : c ∈ pad2 n) : 48 ≤ c := by
  simp only [pad2, List.mem_cons, List.not_mem_nil, or_false] at hc
  omega

lemma pad4_mem_ge (n c : Nat) (hc : c ∈ pad4 n) : 48 ≤ c := by
  simp only [pad4, List.mem_cons, List.not_mem_nil, or_false] at hc
  omega

lemma natVal_pad2 (n : Nat) (h : n ≤ 99) : natVal (pad2 n) = n := by
  simp only [natVal, pad2, List.foldl_cons, List.foldl_nil]
  omega

lemma natVal_pad4 (n : Nat) (h : n ≤ 9999) : natVal (pad4 n) = n := by
  simp only [natVal, pad4, List.foldl_cons, List.foldl_nil]
  omega

lemma takeWhile_bne_append (sep : Nat) (a r : Str) (h : ∀ c ∈ a, c ≠ sep) :
    (a ++ sep :: r).takeWhile (fun c => c != sep) = a := by
  induction a with
  | nil => simp
  | cons x xs ih =>
    have hx : (x != sep) = true := by
      simp only [bne_iff_ne, ne_eq]
      exact h x (List.mem_cons_self x xs)
    simp only [List.cons_append, List.takeWhile_cons, hx, if_true]
    rw [ih (fun c hc => h c (List.mem_cons_of_mem _ hc))]

lemma dropWhile_bne_append (sep : Nat) (a r : Str) (h : ∀ c ∈ a, c ≠ sep) :
    (a ++ sep :: r).dropWhile (fun c => c != sep) = sep :: r := by
  induction a with
  | nil => simp
  | cons x xs ih =>
    have hx : (x != sep) = true := by
      simp only [bne_iff_ne, ne_eq]
      exact h x (List.mem_cons_self x xs)
    simp only [List.cons_append, List.dropWhile_cons, hx, if_true]
    exact ih (fun c hc => h c (List.mem_cons_of_mem _ hc))

lemma takeUntil_append (sep : Nat) (a r : Str) (h : ∀ c ∈ a, c ≠ sep) :
    takeUntil sep (a ++ sep :: r) = (a, sep :: r) := by
  simp only [takeUntil]
  rw [takeWhile_bne_append sep a r h, dropWhile_bne_append sep a r h]

lemma takeWhile_bne_all (sep : Nat) (s : Str) (h : ∀ c ∈ s, c ≠ sep) :
    s.takeWhile (fun c => c != sep) = s := by
  induction s with
  | nil => simp
  | cons x xs ih =>
    have hx : (x != sep) = true := by
      simp only [bne_iff_ne, ne_eq]
      exact h x (List.mem_cons_self x xs)
    simp only [List.takeWhile_cons, hx, if_true]
    rw [ih (fun c hc => h c (List.mem_cons_of_mem _ hc))]

lemma dropWhile_bne_all (sep : Nat) (s : Str) (h : ∀ c ∈ s, c ≠ sep) :
    s.dropWhile (fun c => c != sep) = [] := by
  induction s with
  | nil => simp
  | cons x xs ih =>
    have hx : (x != sep) = true := by
      simp only [bne_iff_ne, ne_eq]
      exact h x (List.mem_cons_self x xs)
    simp only [List.dropWhile_cons, hx, if_true]
    exact ih (fun c hc => h c (List.mem_cons_of_mem _ hc))

lemma split3_append (sep : Nat) (a b c : Str) (ha : ∀ x ∈ a, x ≠ sep)
    (hb : ∀ x ∈ b, x ≠ sep) :
    split3 sep (a ++ sep :: (b ++ sep :: c)) = some (a, b, c) := by
  simp only [split3]
  rw [takeUntil_append sep a _ ha]
  simp only
  rw [takeUntil_append sep b c hb]

lemma split3_nosep (sep : Nat) (s : Str) (h : ∀ x ∈ s, x ≠ sep) :
    split3 sep s = none := by
  simp only [split3, takeUntil]
  rw [dropWhile_bne_all sep s h]

lemma fieldDay_pad2 (n : Nat) (h1 : 1 ≤ n) (h2 : n ≤ 31) :
    fieldDay (pad2 n) = some n := by
  simp only [fieldDay, pad2_digits, if_true, natVal_pad2 n (by omega)]
  have hl : (pad2 n).length = 2 := rfl
  simp only [hl]
  norm_num
  omega

lemma fieldMonth_pad2 (n : Nat) (h1 : 1 ≤ n) (h2 : n ≤ 12) :
    fieldMonth (pad2 n) = some n := by
  simp only [fieldMonth, pad2_digits, if_true, natVal_pad2 n (by omega)]
  have hl : (pad2 n).length = 2 := rfl
  simp only [hl]
  norm_num
  omega

lemma fieldYear4_pad4 (n : Nat) (h : n ≤ 9999) :
    fieldYear4 (pad4 n) = some n := by
  have hl : (pad4 n).length = 4 := rfl
  simp only [fieldYear4, pad4_digits, natVal_pad4 n h, hl]
  norm_num

lemma fieldYear2_pad2 (n : Nat) (h : n ≤ 99) :
    fieldYear2 (pad2 n) = some (if n < 69 then 2000 + n else 1900 + n) := by
  have hl : (pad2 n).length = 2 := rfl
  simp only [fieldYear2, pad2_digits, natVal_pad2 n (by omega), hl]
  norm_num

lemma fieldDay_pad4 (n : Nat) : fieldDay (pad4 n) = none := by
  simp only [fieldDay]
  have hl : (pad4 n).length = 4 := rfl
  simp only [hl]
  norm_num

lemma fieldYear4_pad2 (n : Nat) : fieldYear4 (pad2 n) = none := by
  simp only [fieldYear4]
  have hl : (pad2 n).length = 2 := rfl
  simp only [hl]
  norm_num

lemma fieldMonth_sep (x : Str) : fieldMonth (47 :: x) = none := by
  simp [fieldMonth, isDigitCode]

lemma daysInMonth_le_31 (y m : Nat) : daysInMonth y m ≤ 31 := by
  simp only [daysInMonth]
  split_ifs <;> omega

lemma valid_bounds (d : PyDate) (hv : isValidDate d = true) :
    1 ≤ d.year ∧ d.year ≤ 9999 ∧ 1 ≤ d.month ∧ d.month ≤ 12 ∧
    1 ≤ d.day ∧ d.day ≤ 31 := by
  simp only [isValidDate, Bool.and_eq_true, decide_eq_true_eq] at hv
  have := daysInMonth_le_31 d.year d.month
  omega

lemma mkValidDate_self (d : PyDate) (hv : isValidDate d = true) :
    mkValidDate d.year d.month d.day = some d := by
  simp only [mkValidDate]
  rw [show (⟨d.year, d.month, d.day⟩ : PyDate) = d from rfl, hv]
  simp

lemma pad2_ne47 (n : Nat) : ∀ c ∈ pad2 n, c ≠ 47 :=
  fun c hc => by have := pad2_mem_ge n c hc; omega

lemma pad2_ne45 (n : Nat) : ∀ c ∈ pad2 n, c ≠ 45 :=
  fun c hc => by have := pad2_mem_ge n c hc; omega

lemma pad4_ne47 (n : Nat) : ∀ c ∈ pad4 n, c ≠ 47 :=
  fun c hc => by have := pad4_mem_ge n c hc; omega

lemma pad4_ne45 (n : Nat) : ∀ c ∈ pad4 n, c ≠ 45 :=
  fun c hc => by have := pad4_mem_ge n c hc; omega

lemma mem3 {x sep : Nat} {a b c : Str} (hx : x ∈ a ++ sep :: (b ++ sep :: c)) :
    x ∈ a ∨ x ∈ b ∨ x ∈ c ∨ x = sep := by
  simp only [List.mem_append, List.mem_cons] at hx
  tauto

lemma parse_roundtrip_fmt1 (d : PyDate) (hv : isValidDate d = true)
    (hy : 1000 ≤ d.year) : parse_date (formatDate .DMYSlash d) = some d := by
  obtain ⟨h1, h2, h3, h4, h5, h6⟩ := valid_bounds d hv
  have hp : strptimeDMYSlash (formatDate .DMYSlash d) = some d := by
    simp only [formatDate, strptimeDMYSlash]
    rw [split3_append 47 _ _ _ (pad2_ne47 d.day) (pad2_ne47 d.month)]
    simp only [fieldDay_pad2 d.day h5 h6, fieldMonth_pad2 d.month h3 h4,
      fieldYear4_pad4 d.year h2]
    exact mkValidDate_self d hv
  simp only [parse_date, hp, firstSome]

lemma parse_roundtrip_fmt2 (d : PyDate) (hv : isValidDate d = true)
    (hy : 1000 ≤ d.year) : parse_date (formatDate .YMDDash d) = some d := by
  obtain ⟨h1, h2, h3, h4, h5, h6⟩ := valid_bounds d hv
  have hno47 : ∀ x ∈ formatDate .YMDDash d, x ≠ 47 := by
    intro x hx
    simp only [formatDate] at hx
    rcases mem3 hx with h | h | h | h
    · have := pad4_mem_ge _ _ h; omega
    · have := pad2_mem_ge _ _ h; omega
    · have := pad2_mem_ge _ _ h; omega
    · omega
  have hf1 : strptimeDMYSlash (formatDate .YMDDash d) = none := by
    simp only [strptimeDMYSlash, split3_nosep 47 _ hno47]
  have hf2 : strptimeYMDDash (formatDate .YMDDash d) = some d := by
    simp only [formatDate, strptimeYMDDash]
    rw [split3_append 45 _ _ _ (pad4_ne45 d.year) (pad2_ne45 d.month)]
    simp only [fieldYear4_pad4 d.year h2, fieldMonth_pad2 d.month h3 h4,
      fieldDay_pad2 d.day h5 h6]
    exact mkValidDate_self d hv
  simp only [parse_date, hf1, hf2, firstSome]

lemma parse_roundtrip_fmt3 (d : PyDate) (hv : isValidDate d = true)
    (hy : 1000 ≤ d.year) : parse_date (formatDate .DMYDash d) = some d := by
  obtain ⟨h1, h2, h3, h4, h5, h6⟩ := valid_bounds d hv
  have hno47 : ∀ x ∈ formatDate .DMYDash d, x ≠ 47 := by
    intro x hx
    simp only [formatDate] at hx
    rcases mem3 hx with h | h | h | h
    · have := pad2_mem_ge _ _ h; omega
    · have := pad2_mem_ge _ _ h; omega
    · have := pad4_mem_ge _ _ h; omega
    · omega
  have hf1 : strptimeDMYSlash (formatDate .DMYDash d) = none := by
    simp only [strptimeDMYSlash, split3_nosep 47 _ hno47]
  have hf2 : strptimeYMDDash (formatDate .DMYDash d) = none := by
    simp only [formatDate, strptimeYMDDash]
    rw [split3_append 45 _ _ _ (pad2_ne45 d.day) (pad2_ne45 d.month)]
    simp only [fieldYear4_pad2]
  have hf3 : strptimeDMYDash (formatDate .DMYDash d) = some d := by
    simp only [formatDate, strptimeDMYDash]
    rw [split3_append 45 _ _ _ (pad2_ne45 d.day) (pad2_ne45 d.month)]
    simp only [fieldDay_pad2 d.day h5 h6, fieldMonth_pad2 d.month h3 h4,
      fieldYear4_pad4 d.year h2]
    exact mkValidDate_self d hv
  simp only [parse_date, hf1, hf2, hf3, firstSome]

lemma strptimeYMDCompact_format (y m dd : Nat) (h2 : y ≤ 9999) (h3 : 1 ≤ m)
    (h4 : m ≤ 12) (h5 : 1 ≤ dd) (h6 : dd ≤ 31) :
    strptimeYMDCompact (pad4 y ++ (pad2 m ++ pad2 dd)) = mkValidDate y m dd := by
  have hs : pad4 y ++ (pad2 m ++ pad2 dd) =
      (48 + y / 1000 % 10) :: (48 + y / 100 % 10) :: (48 + y / 10 % 10) ::
      (48 + y % 10) :: ((48 + m / 10 % 10) :: (48 + m % 10) :: pad2 dd) := rfl
  rw [hs]
  simp only [strptimeYMDCompact]
  split_ifs with hcond
  · have ey : natVal [48 + y / 1000 % 10, 48 + y / 100 % 10, 48 + y / 10 % 10,
        48 + y % 10] = y := natVal_pad4 y h2
    have em : fieldMonth [48 + m / 10 % 10, 48 + m % 10] = some m :=
      fieldMonth_pad2 m h3 h4
    have ed : fieldDay (pad2 dd) = some dd := fieldDay_pad2 dd h5 h6
    simp only [ey, em, ed]
  · exfalso
    apply hcond
    simp only [isDigitCode, Bool.and_eq_true, decide_eq_true_eq]
    omega

lemma strptimeYMDCompact_47third (a b : Nat) (r : Str) :
    strptimeYMDCompact (a :: b :: 47 :: r) = none := by
  cases r with
  | nil => rfl
  | cons x r2 =>
    have hcond : (isDigitCode a && isDigitCode b && isDigitCode 47 &&
        isDigitCode x) = false := by
      simp [isDigitCode]
    simp only [strptimeYMDCompact, hcond, Bool.false_eq_true, if_false]

lemma strptimeYMDCompact_pad4_47 (y : Nat) (r : Str) :
    strptimeYMDCompact (pad4 y ++ 47 :: r) = none := by
  have hs : pad4 y ++ 47 :: r = (48 + y / 1000 % 10) :: (48 + y / 100 % 10) ::
      (48 + y / 10 % 10) :: (48 + y % 10) :: 47 :: r := rfl
  rw [hs]
  simp only [strptimeYMDCompact]
  split_ifs with hcond
  · cases r with
    | nil => simp [fieldMonth_sep]
    | cons x r2 =>
      have e1 : fieldMonth [47, x] = none := fieldMonth_sep [x]
      have e2 : fieldMonth [47] = none := fieldMonth_sep []
      simp only [e1, e2]
  · rfl

lemma parse_roundtrip_fmt4 (d : PyDate) (hv : isValidDate d = true)
    (hy : 1000 ≤ d.year) : parse_date (formatDate .YMDCompact d) = some d := by
  obtain ⟨h1, h2, h3, h4, h5, h6⟩ := valid_bounds d hv
  have hge : ∀ x ∈ formatDate .YMDCompact d, 48 ≤ x := by
    intro x hx
    simp only [formatDate, List.mem_append] at hx
    rcases hx with h | h | h
    · exact pad4_mem_ge _ _ h
    · exact pad2_mem_ge _ _ h
    · exact pad2_mem_ge _ _ h
  have hf1 : strptimeDMYSlash (formatDate .YMDCompact d) = none := by
    simp only [strptimeDMYSlash,
      split3_nosep 47 _ (fun x hx => by have := hge x hx; omega)]
  have hf2 : strptimeYMDDash (formatDate .YMDCompact d) = none := by
    simp only [strptimeYMDDash,
      split3_nosep 45 _ (fun x hx => by have := hge x hx; omega)]
  have hf3 : strptimeDMYDash (formatDate .YMDCompact d) = none := by
    simp only [strptimeDMYDash,
      split3_nosep 45 _ (fun x hx => by have := hge x hx; omega)]
  have hf4 : strptimeYMDCompact (formatDate .YMDCompact d) = some d := by
    simp only [formatDate]
    rw [strptimeYMDCompact_format d.year d.month d.day h2 h3 h4 h5 h6]
    exact mkValidDate_self d hv
  simp only [parse_date, hf1, hf2, hf3, hf4, firstSome]

lemma parse_fmt5_value (d : PyDate) (hv : isValidDate d = true) :
    parse_date (formatDate .DMYSlashY2 d) =
      mkValidDate (if d.year % 100 < 69 then 2000 + d.year % 100
        else 1900 + d.year % 100) d.month d.day := by
  obtain ⟨h1, h2, h3, h4, h5, h6⟩ := valid_bounds d hv
  have hf1 : strptimeDMYSlash (formatDate .DMYSlashY2 d) = none := by
    simp only [formatDate, strptimeDMYSlash]
    rw [split3_append 47 _ _ _ (pad2_ne47 d.day) (pad2_ne47 d.month)]
    simp only [fieldDay_pad2 d.day h5 h6, fieldMonth_pad2 d.month h3 h4,
      fieldYear4_pad2]
  have hno45 : ∀ x ∈ formatDate .DMYSlashY2 d, x ≠ 45 := by
    intro x hx
    simp only [formatDate] at hx
    rcases mem3 hx with h | h | h | h
    · have := pad2_mem_ge _ _ h; omega
    · have := pad2_mem_ge _ _ h; omega
    · have := pad2_mem_ge _ _ h; omega
    · omega
  have hf2 : strptimeYMDDash (formatDate .DMYSlashY2 d) = none := by
    simp only [strptimeYMDDash, split3_nosep 45 _ hno45]
  have hf3 : strptimeDMYDash (formatDate .DMYSlashY2 d) = none := by
    simp only [strptimeDMYDash, split3_nosep 45 _ hno45]
  have hf4 : strptimeYMDCompact (formatDate .DMYSlashY2 d) = none :=
    strptimeYMDCompact_47third _ _ _
  have hf5 : strptimeDMYSlashY2 (formatDate .DMYSlashY2 d) =
      mkValidDate (if d.year % 100 < 69 then 2000 + d.year % 100
        else 1900 + d.year % 100) d.month d.day := by
    simp only [formatDate, strptimeDMYSlashY2]
    rw [split3_append 47 _ _ _ (pad2_ne47 d.day) (pad2_ne47 d.month)]
    simp only [fieldDay_pad2 d.day h5 h6, fieldMonth_pad2 d.month h3 h4,
      fieldYear2_pad2 (d.year % 100) (by omega)]
  have hf6 : strptimeYMDSlash (formatDate .DMYSlashY2 d) = none := by
    simp only [formatDate, strptimeYMDSlash]
    rw [split3_append 47 _ _ _ (pad2_ne47 d.day) (pad2_ne47 d.month)]
    simp only [fieldYear4_pad2]
  simp only [parse_date, hf1, hf2, hf3, hf4, hf5, hf6, firstSome]
  cases mkValidDate (if d.year % 100 < 69 then 2000 + d.year % 100
    else 1900 + d.year % 100) d.month d.day <;> rfl

lemma parse_roundtrip_fmt6 (d : PyDate) (hv : isValidDate d = true)
    (hy : 1000 ≤ d.year) : parse_date (formatDate .YMDSlash d) = some d := by
  obtain ⟨h1, h2, h3, h4, h5, h6⟩ := valid_bounds d hv
  have hf1 : strptimeDMYSlash (formatDate .YMDSlash d) = none := by
    simp only [formatDate, strptimeDMYSlash]
    rw [split3_append 47 _ _ _ (pad4_ne47 d.year) (pad2_ne47 d.month)]
    simp only [fieldDay_pad4]
  have hno45 : ∀ x ∈ formatDate .YMDSlash d, x ≠ 45 := by
    intro x hx
    simp only [formatDate] at hx
    rcases mem3 hx with h | h | h | h
    · have := pad4_mem_ge _ _ h; omega
    · have := pad2_mem_ge _ _ h; omega
    · have := pad2_mem_ge _ _ h; omega
    · omega
  have hf2 : strptimeYMDDash (formatDate .YMDSlash d) = none := by
    simp only [strptimeYMDDash, split3_nosep 45 _ hno45]
  have hf3 : strptimeDMYDash (formatDate .YMDSlash d) = none := by
    simp only [strptimeDMYDash, split3_nosep 45 _ hno45]
  have hf4 : strptimeYMDCompact (formatDate .YMDSlash d) = none :=
    strptimeYMDCompact_pad4_47 _ _
  have hf5 : strptimeDMYSlashY2 (formatDate .YMDSlash d) = none := by
    simp only [formatDate, strptimeDMYSlashY2]
    rw [split3_append 47 _ _ _ (pad4_ne47 d.year) (pad2_ne47 d.month)]
    simp only [fieldDay_pad4]
  have hf6 : strptimeYMDSlash (formatDate .YMDSlash d) = some d := by
    simp only [formatDate, strptimeYMDSlash]
    rw [split3_append 47 _ _ _ (pad4_ne47 d.year) (pad2_ne47 d.month)]
    simp only [fieldYear4_pad4 d.year h2, fieldMonth_pad2 d.month h3 h4,
      fieldDay_pad2 d.day h5 h6]
    exact mkValidDate_self d hv
  simp only [parse_date, hf1, hf2, hf3, hf4, hf5, hf6, firstSome]

lemma mkValidDate_year {y m dd : Nat} {d : PyDate}
    (h : mkValidDate y m dd = some d) : d.year = y := by
  simp only [mkValidDate] at h
  split_ifs at h with hval
  exact (congrArg PyDate.year (Option.some.inj h)).symm

/-- C7 counterexample: formatting 1900-01-01 with the supported format
DD/MM/YY gives "01/01/00", which `parse_date` reads back — via the `%y`
century mapping — as 2000-01-01, not the original date, refuting the
claim that the parse/format round trip holds for every calendar date and
every supported format. -/
theorem parse_format_roundtrip_fails :
    parse_date (formatDate .DMYSlashY2 ⟨1900, 1, 1⟩) = some ⟨2000, 1, 1⟩ ∧
    (⟨2000, 1, 1⟩ : PyDate) ≠ ⟨1900, 1, 1⟩ := ⟨by decide, by decide⟩

/-- C7 (amended): for the five formats that render a four-digit year
(DD/MM/YYYY, YYYY-MM-DD, DD-MM-YYYY, YYYYMMDD, YYYY/MM/DD) the round trip
`parse_date (format d f) = d` holds for every valid date with a four-digit
year; for DD/MM/YY the round trip holds exactly for the years 1969-2068,
because the string is parsed by the `%d/%m/%y` attempt whose two-digit year
is mapped into that window. -/
theorem parse_format_roundtrip_amended :
    (∀ d : PyDate, isValidDate d = true → 1000 ≤ d.year →
      parse_date (formatDate .DMYSlash d) = some d ∧
      parse_date (formatDate .YMDDash d) = some d ∧
      parse_date (formatDate .DMYDash d) = some d ∧
      parse_date (formatDate .YMDCompact d) = some d ∧
      parse_date (formatDate .YMDSlash d) = some d) ∧
    (∀ d : PyDate, isValidDate d = true →
      (parse_date (formatDate .DMYSlashY2 d) = some d ↔
        1969 ≤ d.year ∧ d.year ≤ 2068)) := by
  constructor
  · intro d hv hy
    exact ⟨parse_roundtrip_fmt1 d hv hy, parse_roundtrip_fmt2 d hv hy,
      parse_roundtrip_fmt3 d hv hy, parse_roundtrip_fmt4 d hv hy,
      parse_roundtrip_fmt6 d hv hy⟩
  · intro d hv
    rw [parse_fmt5_value d hv]
    obtain ⟨h1, h2, h3, h4, h5, h6⟩ := valid_bounds d hv
    by_cases hc : d.year % 100 < 69
    · rw [if_pos hc]
      constructor
      · intro h
        have h3 := mkValidDate_year h
        omega
      · intro hr
        have hm : 2000 + d.year % 100 = d.year := by omega
        rw [hm]
        exact mkValidDate_self d hv
    · rw [if_neg hc]
      constructor
      · intro h
        have h3 := mkValidDate_year h
        omega
      · intro hr
        have hm : 1900 + d.year % 100 = d.year := by omega
        rw [hm]
        exact mkValidDate_self d hv

/-- C7 witness: the amended round trip instantiated at 2024-05-17, for the
format DD/MM/YYYY and for the two-digit-year format DD/MM/YY (2024 lies in
the 1969-2068 window). -/
theorem parse_format_roundtrip_amended_witness :
    parse_date (formatDate .DMYSlash ⟨2024, 5, 17⟩) = some ⟨2024, 5, 17⟩ ∧
    parse_date (formatDate .DMYSlashY2 ⟨2024, 5, 17⟩) = some ⟨2024, 5, 17⟩ :=
  ⟨(parse_format_roundtrip_amended.1 ⟨2024, 5, 17⟩ (by decide) (by decide)).1,
   (parse_format_roundtrip_amended.2 ⟨2024, 5, 17⟩ (by decide)).mpr (by decide)⟩

/-! ## `DataLoader.load_dim_tempo` (db.py lines 73-115)

The loop builds one `DimTempo` record per iteration, starting at
`start_date` and running `while current_date <= end_date`.  The record's
remaining columns (year, quarter, weekday, ...) are pure functions of the
date; the claims are about date coverage, so the embedding tracks the
`data_completa` value of each record built.  The date increment at lines
103-106 is translated verbatim: a day below 28 is bumped by one via
`date.replace`, any other day jumps to the first of the next month. -/

/-- The increment of db.py lines 103-106. -/
def nextLoadDate (c : PyDate) : PyDate :=
  if c.day < 28 then ⟨c.year, c.month, c.day + 1⟩
  else ⟨c.year + c.month / 12, c.month % 12 + 1, 1⟩

/-- Strictly monotone encoding of well-formed dates (month at most 12,
day at most 31), used to pre-compute how many iterations the loop can
take. -/
def dateCode (d : PyDate) : Nat := d.year * 512 + d.month * 32 + d.day

/-- Months 1-12 and days 1-31, preserved by `nextLoadDate`; every valid
date is well-formed. -/
def wfDate (d : PyDate) : Prop :=
  1 ≤ d.month ∧ d.month ≤ 12 ∧ 1 ≤ d.day ∧ d.day ≤ 31

/-- The `while current_date <= end_date` loop, with explicit fuel.
`dimTempoLoop_fuel_irrelevant` below shows the canonical fuel used by
`load_dim_tempo` never runs out, so this is the loop's exact semantics. -/
def dimTempoLoop : Nat → PyDate → PyDate → List PyDate
  | 0, _, _ => []
  | fuel + 1, c, e =>
    if dateLe c e then c :: dimTempoLoop fuel (nextLoadDate c) e else []

/-- The `data_completa` values of the records one
`load_dim_tempo(start_date, end_date)` call builds and commits. -/
def load_dim_tempo (s e : PyDate) : List PyDate :=
  dimTempoLoop (dateCode e + 1 - dateCode s) s e

lemma wfDate_next {c : PyDate} (h : wfDate c) : wfDate (nextLoadDate c) := by
  obtain ⟨h1, h2, h3, h4⟩ := h
  unfold nextLoadDate
  split_ifs with hd
  · refine ⟨h1, h2, ?_, ?_⟩
    · show 1 ≤ c.day + 1
      omega
    · show c.day + 1 ≤ 31
      omega
  · refine ⟨?_, ?_, ?_, ?_⟩
    · show 1 ≤ c.month % 12 + 1
      omega
    · show c.month % 12 + 1 ≤ 12
      omega
    · show 1 ≤ 1
      omega
    · show (1 : Nat) ≤ 31
      omega

lemma dateCode_lt_next {c : PyDate} (h : wfDate c) :
    dateCode c < dateCode (nextLoadDate c) := by
  obtain ⟨h1, h2, h3, h4⟩ := h
  unfold nextLoadDate
  split_ifs with hd
  · show c.year * 512 + c.month * 32 + c.day <
      c.year * 512 + c.month * 32 + (c.day + 1)
    omega
  · show c.year * 512 + c.month * 32 + c.day <
      (c.year + c.month / 12) * 512 + (c.month % 12 + 1) * 32 + 1
    omega

lemma dateLe_code {c e : PyDate} (hc : wfDate c) (he : wfDate e)
    (h : dateLe c e = true) : dateCode c ≤ dateCode e := by
  obtain ⟨c1, c2, c3, c4⟩ := hc
  obtain ⟨e1, e2, e3, e4⟩ := he
  simp only [dateLe, Bool.or_eq_true, Bool.and_eq_true, decide_eq_true_eq,
    beq_iff_eq] at h
  simp only [dateCode]
  rcases h with h | ⟨hy, h | ⟨hm, hd⟩⟩ <;> omega

/-- The canonical fuel is as good as any larger amount: the embedded loop
computes the source's unbounded `while` loop. -/
lemma dimTempoLoop_fuel_irrelevant (fuel1 : Nat) :
    ∀ fuel2 c e, wfDate c → wfDate e →
    dateCode e + 1 - dateCode c ≤ fuel1 →
    dateCode e + 1 - dateCode c ≤ fuel2 →
    dimTempoLoop fuel1 c e = dimTempoLoop fuel2 c e := by
  induction fuel1 with
  | zero =>
    intro fuel2 c e hc he hf1 hf2
    have hgt : dateLe c e = false := by
      cases hdl : dateLe c e with
      | false => rfl
      | true => exact absurd (dateLe_code hc he hdl) (by omega)
    cases fuel2 with
    | zero => rfl
    | succ f2 => simp [dimTempoLoop, hgt]
  | succ f1 ih =>
    intro fuel2 c e hc he hf1 hf2
    cases hdl : dateLe c e with
    | false =>
      cases fuel2 with
      | zero => simp [dimTempoLoop, hdl]
      | succ f2 => simp [dimTempoLoop, hdl]
    | true =>
      have hcode := dateLe_code hc he hdl
      cases fuel2 with
      | zero => omega
      | succ f2 =>
        simp only [dimTempoLoop, hdl, if_true]
        have hlt := dateCode_lt_next hc
        rw [ih f2 (nextLoadDate c) e (wfDate_next hc) he (by omega) (by omega)]

/-- C2: evaluation of `load_dim_tempo` at the failing input.  Loading
2024-01-01 .. 2024-01-31 yields only 28 rows: 2024-01-28 is the last date
enumerated and 2024-01-29/30/31 are never produced, because the increment
jumps to the first of the next month as soon as the day reaches 28; the
leap day 2024-02-29 is skipped the same way.  This contradicts the claim
that every calendar date of the range gets exactly one TimeDay row. -/
theorem load_dim_tempo_skips_month_end :
    (load_dim_tempo ⟨2024, 1, 1⟩ ⟨2024, 1, 31⟩).length = 28 ∧
    (⟨2024, 1, 28⟩ : PyDate) ∈ load_dim_tempo ⟨2024, 1, 1⟩ ⟨2024, 1, 31⟩ ∧
    (⟨2024, 1, 29⟩ : PyDate) ∉ load_dim_tempo ⟨2024, 1, 1⟩ ⟨2024, 1, 31⟩ ∧
    (⟨2024, 1, 30⟩ : PyDate) ∉ load_dim_tempo ⟨2024, 1, 1⟩ ⟨2024, 1, 31⟩ ∧
    (⟨2024, 1, 31⟩ : PyDate) ∉ load_dim_tempo ⟨2024, 1, 1⟩ ⟨2024, 1, 31⟩ ∧
    (⟨2024, 2, 29⟩ : PyDate) ∉ load_dim_tempo ⟨2024, 2, 1⟩ ⟨2024, 2, 29⟩ :=
  ⟨by decide, by decide, by decide, by decide, by decide, by decide⟩

/-! ## Idempotence of the time-dimension load (C3)

`DimTempo.data_completa` is declared `unique=True` (sqlalchemy_models.py
line 150).  `load_dim_tempo` plainly `add_all`s and commits; a commit that
would store the same date twice raises `IntegrityError`, and the handler
rolls the transaction back (table unchanged) and re-raises. -/

/-- Duplicate test on a list of committed dates. -/
def listHasDup : List PyDate → Bool
  | [] => false
  | x :: xs => decide (x ∈ xs) || listHasDup xs

/-- One `load_dim_tempo(s, e)` call against a table already holding the
dates `db`: all records of the range are inserted in one transaction,
which fails (and changes nothing) whenever the unique constraint on
`data_completa` would be violated. -/
def loadDimTempoDb (db : List PyDate) (s e : PyDate) :
    Except Unit (List PyDate) :=
  let recs := load_dim_tempo s e
  if recs.any (fun r => decide (r ∈ db)) || listHasDup recs then .error ()
  else .ok (db ++ recs)

lemma listHasDup_eq_false_iff (l : List PyDate) :
    listHasDup l = false ↔ l.Nodup := by
  induction l with
  | nil => simp [listHasDup]
  | cons x xs ih => simp [listHasDup, ih, List.nodup_cons]

/-- C3 counterexample: the second of two overlapping runs
(2024-01-01..-10, then 2024-01-05..-15) does not leave one row per
distinct date — it raises on the duplicate date 2024-01-05 and inserts
nothing, refuting the claim that the second run neither creates
duplicates nor fails. -/
theorem load_dim_tempo_second_run_fails :
    loadDimTempoDb [] ⟨2024, 1, 1⟩ ⟨2024, 1, 10⟩ =
      .ok (load_dim_tempo ⟨2024, 1, 1⟩ ⟨2024, 1, 10⟩) ∧
    loadDimTempoDb (load_dim_tempo ⟨2024, 1, 1⟩ ⟨2024, 1, 10⟩)
      ⟨2024, 1, 5⟩ ⟨2024, 1, 15⟩ = .error () := ⟨rfl, rfl⟩

/-- C3 (amended): re-running the load over an overlapping range leaves no
duplicate rows only because the run fails wholesale: a committed state
stays duplicate-free (the unique constraint guarantees it), and a run
whose range overlaps an already-loaded date raises `IntegrityError`,
rolls back and inserts nothing — upsert-by-date is not implemented. -/
theorem load_dim_tempo_idempotence_amended :
    (∀ (db : List PyDate) (s e : PyDate) (out : List PyDate),
      listHasDup db = false → loadDimTempoDb db s e = .ok out →
      listHasDup out = false) ∧
    (∀ (db : List PyDate) (s e : PyDate),
      (load_dim_tempo s e).any (fun r => decide (r ∈ db)) = true →
      loadDimTempoDb db s e = .error ()) ∧
    loadDimTempoDb (load_dim_tempo ⟨2024, 1, 1⟩ ⟨2024, 1, 10⟩)
      ⟨2024, 1, 5⟩ ⟨2024, 1, 15⟩ = .error () := by
  refine ⟨?_, ?_, rfl⟩
  · intro db s e out hdb hok
    simp only [loadDimTempoDb] at hok
    split_ifs at hok with hcond
    rw [Bool.or_eq_true, not_or] at hcond
    obtain ⟨hdisj, hdup⟩ := hcond
    have hout : db ++ load_dim_tempo s e = out := Except.ok.inj hok
    rw [← hout, listHasDup_eq_false_iff, List.nodup_append]
    refine ⟨(listHasDup_eq_false_iff db).mp hdb, ?_, ?_⟩
    · rw [← listHasDup_eq_false_iff]
      exact Bool.not_eq_true _ ▸ Bool.of_not_eq_true hdup
    · intro a ha hb
      apply hdisj
      rw [List.any_eq_true]
      exact ⟨a, hb, by simpa using ha⟩
  · intro db s e hany
    simp only [loadDimTempoDb, hany, Bool.true_or, if_true]

/-- C3 witness: the amended statement applied at the concrete overlapping
runs — the first run commits a duplicate-free state and the second run
fails. -/
theorem load_dim_tempo_idempotence_amended_witness :
    listHasDup (load_dim_tempo ⟨2024, 1, 1⟩ ⟨2024, 1, 10⟩) = false ∧
    loadDimTempoDb (load_dim_tempo ⟨2024, 1, 1⟩ ⟨2024, 1, 10⟩)
      ⟨2024, 1, 5⟩ ⟨2024, 1, 15⟩ = .error () :=
  ⟨load_dim_tempo_idempotence_amended.1 [] ⟨2024, 1, 1⟩ ⟨2024, 1, 10⟩
      (load_dim_tempo ⟨2024, 1, 1⟩ ⟨2024, 1, 10⟩) rfl rfl,
   load_dim_tempo_idempotence_amended.2.2⟩

/-! ## `DataLoader.load_funcionarios` (db.py lines 142-220)

The docstring announces "implementação SCD Tipo 2", but the body performs
no lookup, no close and no update: for every input dictionary it
constructs a fresh `DimFuncionario` object and `session.add_all` inserts
all of them.  The SCD control columns are never passed, so they take the
column defaults of sqlalchemy_models.py lines 249-252:
`data_inicio_validade = now`, `data_fim_validade = NULL`,
`registro_ativo = True`.  The embedding keeps the natural key, the
attributes the loaders consult (name, CPF, registration, situation, sex,
birth date, unit name, sector name) and the SCD control columns; the
remaining thirty-odd descriptive columns are copied verbatim from the
input in exactly the same way and are read by nothing modelled here.
Timestamps (`DateTime`) are abstracted as `Nat` ticks. -/

/-- One employee input dictionary, with the keys used by the modelled
columns.  (The claims about this loader use fully-populated inputs, so
the bracket-accessed keys are carried as plain fields.) -/
structure FuncInput where
  codigo : Nat                -- CODIGO
  codigoEmpresa : Nat         -- CODIGOEMPRESA
  nome : Str                  -- NOME
  cpf : Option Str            -- CPF
  matricula : Str             -- MATRICULAFUNCIONARIO
  situacao : Str              -- SITUACAO
  sexo : Nat                  -- SEXO
  dataNascimento : Option Str -- DATA_NASCIMENTO
  dataAdmissao : Option Str   -- DATA_ADMISSAO
  nomeUnidade : Option Str    -- NOMEUNIDADE (via .get)
  nomeSetor : Option Str      -- NOMESETOR (via .get)
deriving DecidableEq, Repr

/-- A stored `dim_funcionario` row (modelled columns). -/
structure DimFuncionarioRow where
  sk_funcionario : Nat
  codigo_funcionario : Nat
  codigo_empresa : Nat
  nome : Str
  cpf : Option Str
  matricula_funcionario : Str
  situacao : Str
  sexo : Nat
  data_nascimento : Option PyDate
  data_admissao : Option PyDate
  nome_unidade : Option Str
  nome_setor : Option Str
  data_inicio_validade : Nat
  data_fim_validade : Option Nat
  registro_ativo : Bool
deriving DecidableEq, Repr

/-- The `DimFuncionario(...)` construction of db.py lines 156-210: every
attribute column comes from the input (birth date through `_parse_date`),
and the SCD control columns take their declared defaults — validity start
`now`, open validity end, active `true`. -/
def mkDimFuncionarioRow (sk : Nat) (now : Nat) (f : FuncInput) :
    DimFuncionarioRow :=
  { sk_funcionario := sk
    codigo_funcionario := f.codigo
    codigo_empresa := f.codigoEmpresa
    nome := f.nome
    cpf := f.cpf
    matricula_funcionario := f.matricula
    situacao := f.situacao
    sexo := f.sexo
    data_nascimento := db_parse_date f.dataNascimento
    data_admissao := db_parse_date f.dataAdmissao
    nome_unidade := f.nomeUnidade
    nome_setor := f.nomeSetor
    data_inicio_validade := now
    data_fim_validade := none
    registro_ativo := true }

/-- The schema constraints `commit` enforces on a fresh `dim_funcionario`
row: of the modelled columns, `cpf` (sqlalchemy_models.py line 187),
`data_nascimento` (line 191) and `data_admissao` (line 203) are declared
`nullable=False`, and `codigo_empresa` (line 183) is a foreign key into
`dim_empresa.codigo_empresa` — `empresas` is the committed set of company
codes.  (The other modelled NOT NULL columns — name, registration,
situation, sex — are non-optional in the row type and cannot be NULL;
the SCD control columns always receive their non-null defaults.) -/
def dimFuncionarioRowOk (empresas : List Nat) (r : DimFuncionarioRow) :
    Bool :=
  !(r.cpf == none) && !(r.data_nascimento == none) &&
  !(r.data_admissao == none) && decide (r.codigo_empresa ∈ empresas)

/-- `DataLoader.load_funcionarios(funcionarios_data)` against a table
state: one fresh row per input, `add_all`ed and committed together; no
existing row is read or modified, and surrogate keys continue the
autoincrement sequence.  The commit succeeds only when every inserted
row satisfies the NOT NULL and foreign-key constraints
(`dimFuncionarioRowOk`); otherwise `IntegrityError` is raised, the
handler rolls back (nothing is stored) and re-raises. -/
def load_funcionarios (empresas : List Nat) (table : List DimFuncionarioRow)
    (now : Nat) (data : List FuncInput) :
    Except Unit (List DimFuncionarioRow) :=
  let newRows := ((List.range data.length).zip data).map
    (fun p => mkDimFuncionarioRow (table.length + p.1 + 1) now p.2)
  if newRows.all (dimFuncionarioRowOk empresas) then .ok (table ++ newRows)
  else .error ()

/-- Number of stored versions with `registro_ativo = true` for one
natural key (company code, employee code). -/
def countActive (table : List DimFuncionarioRow) (empresa codigo : Nat) :
    Nat :=
  (table.filter (fun r => r.codigo_empresa == empresa &&
    r.codigo_funcionario == codigo && r.registro_ativo)).length

/-- First sample employee input (company 1, employee 100, sector S1);
every NOT NULL column of the stored row gets a non-null value, and the
company code exists, so the commit succeeds. -/
def funcInputA : FuncInput :=
  { codigo := 100, codigoEmpresa := 1, nome := ofString "ANA",
    cpf := some (ofString "11144477735"), matricula := ofString "M1",
    situacao := ofString "ATIVO", sexo := 2,
    dataNascimento := some (ofString "1990-04-05"),
    dataAdmissao := some (ofString "2020-01-02"),
    nomeUnidade := some (ofString "U1"), nomeSetor := some (ofString "S1") }

/-- The same natural key re-loaded later with a changed tracked attribute
(sector S2). -/
def funcInputB : FuncInput :=
  { funcInputA with nomeSetor := some (ofString "S2") }

/-- The table state after the first committed load of `funcInputA`. -/
def funcState1 : List DimFuncionarioRow := [mkDimFuncionarioRow 1 1 funcInputA]

/-- The table state after the second committed load of `funcInputB`. -/
def funcState2 : List DimFuncionarioRow :=
  funcState1 ++ [mkDimFuncionarioRow 2 2 funcInputB]

/-- C1: evaluation at the failing input.  Both loads satisfy every
modelled constraint (non-null CPF, birth date and admission date; company
code 1 committed), so both commits succeed; yet after loading the same
natural key (company 1, employee 100) twice — the second time with the
sector changed from S1 to S2 — the stored table holds exactly two rows
for that key, BOTH with `registro_ativo = true` and an open validity
window: `load_funcionarios` never looks up, closes or updates the
existing active version (its docstring announces SCD type 2; its body
only inserts fresh rows with the active/open defaults), violating the
at-most-one-active invariant of the claim. -/
theorem load_funcionarios_two_active :
    load_funcionarios [1] [] 1 [funcInputA] = .ok funcState1 ∧
    load_funcionarios [1] funcState1 2 [funcInputB] = .ok funcState2 ∧
    countActive funcState2 1 100 = 2 ∧
    funcState2.all
      (fun r => r.registro_ativo && r.data_fim_validade == none) = true ∧
    funcState2.length = 2 := by
  refine ⟨rfl, rfl, ?_, ?_, ?_⟩ <;> rfl

/-! ## `DataLoader.load_absenteismo` (db.py lines 222-290)

Each input dictionary is processed in a loop: the employee is looked up
by the composite natural key restricted to `registro_ativo == True`; a
missing employee is logged (`logger.warning`) and skipped (`continue`);
the start/end time-dimension rows are looked up by exact date; then a
`FatoAbsenteismo` object is built.  Everything is committed at the end;
any exception inside the loop — in particular a `KeyError` from a bracket
access (`abs_data['UNIDADE']`, `['SETOR']`, `['DT_NASCIMENTO']`,
`['SEXO']`, `['DT_INICIO_ATESTADO']`, `['MATRICULA_FUNC']`,
`['TIPO_ATESTADO']`) on a missing key — is caught by the handler, which
rolls back and re-raises, so the batch then loads nothing.  The embedding
returns the emitted facts together with the skipped rows (the source's
warning log).  The purely copied medical fields (CID, pathology group,
licence type) and the hour fields are passed through unmodelled; they are
`.get`-accessed and can raise nothing. -/

/-- One raw absence dictionary: `none` in a bracket-accessed field means
the key is missing (a `KeyError` at access time); `none` in a
`.get`-accessed field means the default is used. -/
structure AbsRow where
  empresa : Option Nat      -- .get('EMPRESA', 0)
  unidade : Option Str      -- ['UNIDADE']
  setor : Option Str        -- ['SETOR']
  dtNascimento : Option Str -- ['DT_NASCIMENTO']
  sexo : Option Nat         -- ['SEXO']
  matricula : Option Str    -- ['MATRICULA_FUNC']
  tipoAtestado : Option Nat -- ['TIPO_ATESTADO']
  dtInicio : Option Str     -- ['DT_INICIO_ATESTADO']
  dtFim : Option Str        -- .get('DT_FIM_ATESTADO')
  diasAfastados : Option Int -- .get('DIAS_AFASTADOS', 0)
deriving DecidableEq, Repr

/-- A stored `dim_tempo` row, as consulted by the fact loader. -/
structure DimTempoRow where
  sk_tempo : Nat
  data_completa : PyDate
deriving DecidableEq, Repr

/-- The emitted `FatoAbsenteismo` columns that the claims consult. -/
structure FatoAbsenteismoRow where
  sk_funcionario : Nat
  sk_tempo_inicio : Option Nat
  sk_tempo_fim : Option Nat
  codigo_empresa : Nat
  unidade : Str
  setor : Str
  data_nascimento : Option PyDate
  sexo : Nat
  matricula_funcionario : Str
  tipo_atestado : Nat
  data_inicio_atestado : Option PyDate
  data_fim_atestado : Option PyDate
  dias_afastados : Int
deriving DecidableEq, Repr

/-- The composite-key employee lookup of db.py lines 232-239 (`.first()`
on the filtered query).  SQLAlchemy renders a comparison against a Python
`None` as `IS NULL`, which `Option` equality models exactly; the filter
includes `registro_ativo == True`, so only active versions can match. -/
def findFuncionario (funcs : List DimFuncionarioRow) (empresa : Nat)
    (unidade setor : Str) (nasc : Option PyDate) (sexo : Nat) :
    Option DimFuncionarioRow :=
  funcs.find? (fun f => f.codigo_empresa == empresa &&
    f.nome_unidade == some unidade && f.nome_setor == some setor &&
    f.data_nascimento == nasc && f.sexo == sexo && f.registro_ativo == true)

/-- The lookup a row would perform, with the bracket accesses it needs;
`none` when a required key is missing or no active version matches. -/
def absLookup (funcs : List DimFuncionarioRow) (r : AbsRow) :
    Option DimFuncionarioRow :=
  match r.unidade, r.setor, r.dtNascimento, r.sexo with
  | some u, some s, some dn, some sx =>
    findFuncionario funcs (r.empresa.getD 0) u s (db_parse_date (some dn)) sx
  | _, _, _, _ => none

/-- Processing of one absence row (the body of the loop at db.py lines
230-281): `Except.error` is a raised `KeyError`, `.ok none` the logged
skip, `.ok (some fact)` an emitted fact object. -/
def processAbsRow (funcs : List DimFuncionarioRow) (tempo : List DimTempoRow)
    (r : AbsRow) : Except Unit (Option FatoAbsenteismoRow) :=
  match r.unidade, r.setor, r.dtNascimento, r.sexo with
  | some unidade, some setor, some dtNasc, some sexo =>
    match findFuncionario funcs (r.empresa.getD 0) unidade setor
        (db_parse_date (some dtNasc)) sexo with
    | none => .ok none
    | some func =>
      match r.dtInicio with
      | none => .error ()
      | some dtInicio =>
        let dataInicio := db_parse_date (some dtInicio)
        let dataFim := db_parse_date r.dtFim
        let tempoInicio : Option DimTempoRow := match dataInicio with
          | some di => tempo.find? (fun t => t.data_completa == di)
          | none => none
        let tempoFim : Option DimTempoRow := match dataFim with
          | some df => tempo.find? (fun t => t.data_completa == df)
          | none => none
        match r.matricula, r.tipoAtestado with
        | some matricula, some tipoAtestado =>
          .ok (some
            { sk_funcionario := func.sk_funcionario
              sk_tempo_inicio := tempoInicio.map (fun t => t.sk_tempo)
              sk_tempo_fim := tempoFim.map (fun t => t.sk_tempo)
              codigo_empresa := r.empresa.getD 0
              unidade := unidade
              setor := setor
              data_nascimento := db_parse_date (some dtNasc)
              sexo := sexo
              matricula_funcionario := matricula
              tipo_atestado := tipoAtestado
              data_inicio_atestado := dataInicio
              data_fim_atestado := dataFim
              dias_afastados := r.diasAfastados.getD 0 })
        | _, _ => .error ()
  | _, _, _, _ => .error ()

/-- The loop of db.py lines 230-281 over all rows: builds the fact
objects and the skips; a raised exception (`KeyError`) aborts it.  The
commit that follows is modelled separately in `load_absenteismo`. -/
def processAbsRows (funcs : List DimFuncionarioRow)
    (tempo : List DimTempoRow) (rows : List AbsRow) :
    Except Unit (List FatoAbsenteismoRow × List AbsRow) :=
  match rows with
  | [] => .ok ([], [])
  | r :: rest =>
    match processAbsRow funcs tempo r with
    | .error e => .error e
    | .ok res =>
      match processAbsRows funcs tempo rest with
      | .error e => .error e
      | .ok (facts, skips) =>
        match res with
        | some fact => .ok (fact :: facts, skips)
        | none => .ok (facts, r :: skips)

/-- The NOT NULL constraints of `fato_absenteismo` on the columns the
code can set to `None`: `sk_tempo_inicio` (sqlalchemy_models.py line
283), `data_nascimento` (line 290) and `data_inicio_atestado` (line 296)
are declared `nullable=False`, while `sk_tempo_fim`, `data_fim_atestado`
and the remaining modelled optionals are nullable.  A built fact object
carrying `None` in a non-nullable column makes the commit raise
`IntegrityError`. -/
def fatoAbsRowOk (f : FatoAbsenteismoRow) : Bool :=
  !(f.sk_tempo_inicio == none) && !(f.data_nascimento == none) &&
  !(f.data_inicio_atestado == none)

/-- `DataLoader.load_absenteismo(absenteismo_data)`: the loop over all
rows followed by a single `add_all` + `commit`.  A raised exception — a
`KeyError` inside the loop, or an `IntegrityError` at commit when some
built fact violates a NOT NULL column (a start date that is unparseable
or absent from `dim_tempo` leaves `sk_tempo_inicio`/`data_inicio_atestado`
as `None`) — aborts the whole batch: the handler rolls back (nothing is
stored) and re-raises. -/
def load_absenteismo (funcs : List DimFuncionarioRow)
    (tempo : List DimTempoRow) (rows : List AbsRow) :
    Except Unit (List FatoAbsenteismoRow × List AbsRow) :=
  match processAbsRows funcs tempo rows with
  | .error e => .error e
  | .ok (facts, skips) =>
    if facts.all fatoAbsRowOk then .ok (facts, skips) else .error ()

/-- The bracket-accessed keys a row needs so that processing it cannot
raise. -/
def absRequiredOk (r : AbsRow) : Prop :=
  r.unidade ≠ none ∧ r.setor ≠ none ∧ r.dtNascimento ≠ none ∧
  r.sexo ≠ none ∧ r.matricula ≠ none ∧ r.tipoAtestado ≠ none ∧
  r.dtInicio ≠ none

instance (r : AbsRow) : Decidable (absRequiredOk r) := by
  unfold absRequiredOk
  infer_instance

lemma processAbsRow_characterize (funcs : List DimFuncionarioRow)
    (tempo : List DimTempoRow) (r : AbsRow) (h : absRequiredOk r) :
    (absLookup funcs r = none ∧ processAbsRow funcs tempo r = .ok none) ∨
    (∃ f fact, absLookup funcs r = some f ∧ f ∈ funcs ∧
      f.registro_ativo = true ∧ fact.sk_funcionario = f.sk_funcionario ∧
      processAbsRow funcs tempo r = .ok (some fact)) := by
  obtain ⟨h1, h2, h3, h4, h5, h6, h7⟩ := h
  obtain ⟨u, hu⟩ := Option.ne_none_iff_exists'.mp h1
  obtain ⟨s, hs⟩ := Option.ne_none_iff_exists'.mp h2
  obtain ⟨dn, hdn⟩ := Option.ne_none_iff_exists'.mp h3
  obtain ⟨sx, hsx⟩ := Option.ne_none_iff_exists'.mp h4
  obtain ⟨mat, hmat⟩ := Option.ne_none_iff_exists'.mp h5
  obtain ⟨ta, hta⟩ := Option.ne_none_iff_exists'.mp h6
  obtain ⟨di, hdi⟩ := Option.ne_none_iff_exists'.mp h7
  simp only [absLookup, processAbsRow, hu, hs, hdn, hsx, hmat, hta, hdi]
  rcases hfind : findFuncionario funcs (r.empresa.getD 0) u s
      (db_parse_date (some dn)) sx with _ | f
  · left
    exact ⟨rfl, rfl⟩
  · right
    refine ⟨f, _, rfl, List.mem_of_find?_eq_some hfind, ?_, rfl, rfl⟩
    have hp := List.find?_some hfind
    simp only [Bool.and_eq_true, beq_iff_eq] at hp
    exact hp.2

lemma processAbsRows_ok :
    ∀ (funcs : List DimFuncionarioRow) (tempo : List DimTempoRow)
      (rows : List AbsRow), (∀ r ∈ rows, absRequiredOk r) →
    ∃ facts skips,
      processAbsRows funcs tempo rows = .ok (facts, skips) ∧
      facts.length + skips.length = rows.length ∧
      (∀ fact ∈ facts, ∃ f, f ∈ funcs ∧ f.registro_ativo = true ∧
        fact.sk_funcionario = f.sk_funcionario) ∧
      (∀ r ∈ skips, absLookup funcs r = none) := by
  intro funcs tempo rows hreq
  induction rows with
  | nil => exact ⟨[], [], rfl, rfl, by simp, by simp⟩
  | cons r rest ih =>
    obtain ⟨facts, skips, hok, hlen, hfacts, hskips⟩ :=
      ih (fun x hx => hreq x (List.mem_cons_of_mem _ hx))
    rcases processAbsRow_characterize funcs tempo r
        (hreq r (List.mem_cons_self r rest)) with
      ⟨hl, hp⟩ | ⟨f, fact, hl, hf, ha, hsk, hp⟩
    · refine ⟨facts, r :: skips, ?_, ?_, hfacts, ?_⟩
      · simp only [processAbsRows, hp, hok]
      · simp only [List.length_cons]
        omega
      · intro x hx
        rcases List.mem_cons.mp hx with hx | hx
        · subst hx
          exact hl
        · exact hskips x hx
    · refine ⟨fact :: facts, skips, ?_, ?_, ?_, hskips⟩
      · simp only [processAbsRows, hp, hok]
      · simp only [List.length_cons]
        omega
      · intro x hx
        rcases List.mem_cons.mp hx with hx | hx
        · subst hx
          exact ⟨f, hf, ha, hsk⟩
        · exact hfacts x hx

/-- C4 (amended): for a batch whose rows all carry the bracket-accessed
keys, the row loop never raises: every row either becomes a built fact or
a logged skip; an emitted fact's employee surrogate key always comes from
a stored version with `registro_ativo = true` (the lookup filter matches
only active versions) and every skipped row is one whose composite-key
lookup found no active version — no fact is fabricated for it.  The
batch then commits exactly when every built fact satisfies the fact
table's NOT NULL columns; a fact whose start date is unparseable or
absent from `dim_tempo` (or whose matched version has a NULL birth date)
instead makes the commit raise `IntegrityError` and the whole batch
aborts — as does a row missing a bracket-accessed key (see the
counterexample). -/
theorem load_absenteismo_amended :
    ∀ (funcs : List DimFuncionarioRow) (tempo : List DimTempoRow)
      (rows : List AbsRow), (∀ r ∈ rows, absRequiredOk r) →
    ∃ facts skips,
      processAbsRows funcs tempo rows = .ok (facts, skips) ∧
      load_absenteismo funcs tempo rows =
        (if facts.all fatoAbsRowOk then .ok (facts, skips)
         else .error ()) ∧
      facts.length + skips.length = rows.length ∧
      (∀ fact ∈ facts, ∃ f, f ∈ funcs ∧ f.registro_ativo = true ∧
        fact.sk_funcionario = f.sk_funcionario) ∧
      (∀ r ∈ skips, absLookup funcs r = none) := by
  intro funcs tempo rows hreq
  obtain ⟨facts, skips, hok, hlen, hfacts, hskips⟩ :=
    processAbsRows_ok funcs tempo rows hreq
  exact ⟨facts, skips, hok, by simp only [load_absenteismo, hok], hlen,
    hfacts, hskips⟩

/-- A raw absence row with every bracket-accessed key present. -/
def absRowComplete : AbsRow :=
  { empresa := some 1, unidade := some (ofString "U1"),
    setor := some (ofString "S1"),
    dtNascimento := some (ofString "1990-04-05"), sexo := some 2,
    matricula := some (ofString "M1"), tipoAtestado := some 1,
    dtInicio := some (ofString "2024-01-10"), dtFim := none,
    diasAfastados := some 2 }

/-- The same row with the `UNIDADE` key missing from the dictionary. -/
def absRowMissingUnidade : AbsRow :=
  { absRowComplete with unidade := none }

/-- C4 counterexample: a batch containing one raw row whose dictionary
lacks the `UNIDADE` key raises (`KeyError` during the query construction,
caught, rolled back and re-raised): the loader neither emits a fact nor
records a skip for that row, and the batch does not continue — refuting
the claim that the loader never raises for a single bad row. -/
theorem load_absenteismo_raises_on_missing_key :
    load_absenteismo [] [] [absRowMissingUnidade] = .error () := rfl

/-- A committed active employee version matching `absRowComplete`'s
composite key (company 1, unit U1, sector S1, birth date 1990-04-05,
sex 2), with every NOT NULL column populated. -/
def sampleFuncRow : DimFuncionarioRow :=
  { sk_funcionario := 1, codigo_funcionario := 100, codigo_empresa := 1,
    nome := ofString "ANA", cpf := some (ofString "11144477735"),
    matricula_funcionario := ofString "M1", situacao := ofString "ATIVO",
    sexo := 2, data_nascimento := some ⟨1990, 4, 5⟩,
    data_admissao := some ⟨2020, 1, 2⟩,
    nome_unidade := some (ofString "U1"),
    nome_setor := some (ofString "S1"),
    data_inicio_validade := 1, data_fim_validade := none,
    registro_ativo := true }

/-- A committed `dim_tempo` row for the absence's start date. -/
def sampleTempoRow : DimTempoRow :=
  { sk_tempo := 7, data_completa := ⟨2024, 1, 10⟩ }

/-- C4 witness: the amended statement applied to a concrete batch whose
start date is present in `dim_tempo` — the row loop emits one fact from
the active version, and the commit succeeds (`.ok`), shown by the last
conjunct. -/
theorem load_absenteismo_amended_witness :
    (∃ facts skips,
      processAbsRows [sampleFuncRow] [sampleTempoRow] [absRowComplete] =
        .ok (facts, skips) ∧
      load_absenteismo [sampleFuncRow] [sampleTempoRow] [absRowComplete] =
        (if facts.all fatoAbsRowOk then .ok (facts, skips)
         else .error ()) ∧
      facts.length + skips.length = 1 ∧
      (∀ fact ∈ facts, ∃ f, f ∈ [sampleFuncRow] ∧
        f.registro_ativo = true ∧
        fact.sk_funcionario = f.sk_funcionario) ∧
      (∀ r ∈ skips, absLookup [sampleFuncRow] r = none)) ∧
    (∃ out, load_absenteismo [sampleFuncRow] [sampleTempoRow]
        [absRowComplete] = .ok out) :=
  ⟨load_absenteismo_amended [sampleFuncRow] [sampleTempoRow]
      [absRowComplete] (by decide),
   ⟨_, rfl⟩⟩

/-! ## `FuncionarioETL.process_raw_data` (etl.py lines 339-387) and
`AbsenteismoETL.process_raw_data` (etl.py lines 229-293)

Both methods transform columns in place, then iterate over the rows
appending error dictionaries (`{'row': idx, 'error': ...}`) to a flat
list, and return `(processed_data, errors)`.  Neither drops a row because
of a recorded validation error: `FuncionarioETL` returns every input row;
`AbsenteismoETL` drops exactly the rows with an absent
`data_inicio_atestado`, `sexo` or `tipo_atestado` (`dropna`), regardless
of the errors list.  The derived-metric steps add columns to existing
rows and neither create nor drop rows, so they are omitted from the
embedding.  The date-order validation calls `validate_date_range`, which
raises on an absent start paired with a present end; that exception
propagates out of `process_raw_data` — modelled with `Except`. -/

/-- `DataTransformer.clean_cpf` / `clean_phone` (etl.py lines 113-132):
falsy input (absent or empty) maps to `None`, anything else to its digit
characters. -/
def clean_cpf (s : Option Str) : Option Str :=
  match s with
  | none => none
  | some s => if s.isEmpty then none else some (s.filter isDigitCode)

/-- An input row of `FuncionarioETL.process_raw_data`, restricted to the
columns its validations read (the phone columns are cleaned the same way
as the CPF and then never read; `DATAULTALTERACAO` is parsed and never
read). -/
structure FuncETLRow where
  cpf : Option Str
  email : Option Str
  dataNascimento : Option Str
  dataAdmissao : Option Str
  dataDemissao : Option Str
deriving DecidableEq, Repr

/-- The same row after the in-place column transformations. -/
structure FuncETLRowOut where
  cpf : Option Str
  email : Option Str
  dataNascimento : Option PyDate
  dataAdmissao : Option PyDate
  dataDemissao : Option PyDate
deriving DecidableEq, Repr

/-- The error kinds `FuncionarioETL` appends. -/
inductive FuncErr where
  | cpfInvalido
  | emailInvalido
  | dataDemissaoAnterior
deriving DecidableEq, Repr

/-- The column transformations (CPF cleaning, date parsing). -/
def funcTransform (r : FuncETLRow) : FuncETLRowOut :=
  { cpf := clean_cpf r.cpf
    email := r.email
    dataNascimento := parseDateOpt r.dataNascimento
    dataAdmissao := parseDateOpt r.dataAdmissao
    dataDemissao := parseDateOpt r.dataDemissao }

/-- Truthiness of an optional string (`if row['CPF'] and ...`). -/
def truthyStr (s : Option Str) : Bool :=
  match s with
  | none => false
  | some s => !s.isEmpty

/-- The guard of etl.py line 358:
`if row['CPF'] and not self.validator.validate_cpf(row['CPF'])` — the
(cleaned) CPF is truthy (present and non-empty) and fails the checksum.
A CPF that cleans to the empty string is falsy and records nothing. -/
def cpfErrCond (r : FuncETLRowOut) : Bool :=
  truthyStr r.cpf && !validateCpfOpt r.cpf

/-- The guard of etl.py line 366:
`if row.get('EMAIL') and not self.validator.validate_email(row['EMAIL'])`. -/
def emailErrCond (r : FuncETLRowOut) : Bool :=
  truthyStr r.email && !validateEmailOpt r.email

/-- The validation block of etl.py lines 356-382 for one row at index
`i`: an invalid (cleaned, non-empty) CPF, an invalid non-empty email and
an inverted admission/termination range each append one error; the
date-range check can raise. -/
def funcRowErrs (i : Nat) (r : FuncETLRowOut) :
    Except Unit (List (Nat × FuncErr)) :=
  let e1 : List (Nat × FuncErr) :=
    if cpfErrCond r then [(i, FuncErr.cpfInvalido)] else []
  let e2 : List (Nat × FuncErr) :=
    if emailErrCond r then [(i, FuncErr.emailInvalido)] else []
  match validate_date_range r.dataAdmissao r.dataDemissao with
  | .error e => .error e
  | .ok b =>
    .ok (e1 ++ e2 ++ (if !b then [(i, FuncErr.dataDemissaoAnterior)] else []))

/-- Indexed error accumulation over the row loop (`for idx, row in
processed_data.iterrows()`): a raised exception aborts the method. -/
def accumErrs {α ε : Type} (f : Nat → α → Except Unit (List (Nat × ε))) :
    Nat → List α → Except Unit (List (Nat × ε))
  | _, [] => .ok []
  | i, r :: rest =>
    match f i r with
    | .error e => .error e
    | .ok es =>
      match accumErrs f (i + 1) rest with
      | .error e => .error e
      | .ok rest2 => .ok (es ++ rest2)

/-- `FuncionarioETL.process_raw_data`: transforms the columns,
accumulates validation errors, and returns every row — no row is dropped
by the validations. -/
def funcionarioProcessRaw (rows : List FuncETLRow) :
    Except Unit (List FuncETLRowOut × List (Nat × FuncErr)) :=
  let out := rows.map funcTransform
  match accumErrs funcRowErrs 0 out with
  | .error e => .error e
  | .ok errs => .ok (out, errs)

/-- An input row of `AbsenteismoETL.process_raw_data`, restricted to the
columns read by its validations and its `dropna`. -/
structure AbsETLRow where
  dataInicio : Option Str
  dataFim : Option Str
  sexo : Option Nat
  tipoAtestado : Option Nat
  diasAfastados : Option Int
deriving DecidableEq, Repr

/-- The same row after the date columns are parsed. -/
structure AbsETLRowOut where
  dataInicio : Option PyDate
  dataFim : Option PyDate
  sexo : Option Nat
  tipoAtestado : Option Nat
  diasAfastados : Option Int
deriving DecidableEq, Repr

/-- The error kinds `AbsenteismoETL` appends. -/
inductive AbsErr where
  | dataFimAnterior
  | diasNegativos
deriving DecidableEq, Repr

/-- The column transformations of `AbsenteismoETL` (date parsing). -/
def absTransform (r : AbsETLRow) : AbsETLRowOut :=
  { dataInicio := parseDateOpt r.dataInicio
    dataFim := parseDateOpt r.dataFim
    sexo := r.sexo
    tipoAtestado := r.tipoAtestado
    diasAfastados := r.diasAfastados }

/-- The guard of etl.py line 280: `if row.get('dias_afastados', 0) < 0`
— the pandas comparison of an absent value with 0 is false, and a
missing column compares as the default 0. -/
def diasNegCond (r : AbsETLRowOut) : Bool :=
  match r.diasAfastados with
  | some v => decide (v < 0)
  | none => false

/-- The validation block of etl.py lines 267-285 for one row: an inverted
date range and a negative `dias_afastados` each append one error. -/
def absRowErrs (i : Nat) (r : AbsETLRowOut) :
    Except Unit (List (Nat × AbsErr)) :=
  match validate_date_range r.dataInicio r.dataFim with
  | .error e => .error e
  | .ok b =>
    let e1 : List (Nat × AbsErr) :=
      if !b then [(i, AbsErr.dataFimAnterior)] else []
    let e2 : List (Nat × AbsErr) :=
      if diasNegCond r then [(i, AbsErr.diasNegativos)] else []
    .ok (e1 ++ e2)

/-- The `dropna(subset=['data_inicio_atestado', 'sexo', 'tipo_atestado'])`
membership test. -/
def absValidRow (r : AbsETLRowOut) : Bool :=
  !(r.dataInicio == none) && !(r.sexo == none) && !(r.tipoAtestado == none)

/-- `AbsenteismoETL.process_raw_data`: transforms the columns, accumulates
the validation errors over ALL rows, and then returns the rows surviving
`dropna` — the error list does not influence which rows are returned. -/
def absenteismoProcessRaw (rows : List AbsETLRow) :
    Except Unit (List AbsETLRowOut × List (Nat × AbsErr)) :=
  let out := rows.map absTransform
  match accumErrs absRowErrs 0 out with
  | .error e => .error e
  | .ok errs => .ok (out.filter absValidRow, errs)

lemma mem_ite_singleton {γ : Type} {c : Prop} [Decidable c] {x p : γ}
    (h : p ∈ if c then [x] else ([] : List γ)) : p = x := by
  split at h
  · simpa using h
  · simp at h

lemma accumErrs_index_ge {α ε : Type}
    (f : Nat → α → Except Unit (List (Nat × ε)))
    (hf : ∀ i r es, f i r = .ok es → ∀ p ∈ es, p.1 = i) :
    ∀ (rows : List α) (i : Nat) (errs : List (Nat × ε)),
      accumErrs f i rows = .ok errs → ∀ p ∈ errs, i ≤ p.1 := by
  intro rows
  induction rows with
  | nil =>
    intro i errs h p hp
    simp only [accumErrs] at h
    injection h with h
    subst h
    simp at hp
  | cons r rest ih =>
    intro i errs h p hp
    simp only [accumErrs] at h
    split at h
    · exact Except.noConfusion h
    · rename_i es hes
      split at h
      · exact Except.noConfusion h
      · rename_i rest2 hrest
        injection h with h
        subst h
        rcases List.mem_append.mp hp with hp | hp
        · exact le_of_eq (hf i r es hes p hp).symm
        · have := ih (i + 1) rest2 hrest p hp
          omega

lemma accumErrs_mem {α ε : Type}
    (f : Nat → α → Except Unit (List (Nat × ε)))
    (hf : ∀ i r es, f i r = .ok es → ∀ p ∈ es, p.1 = i) :
    ∀ (rows : List α) (i : Nat) (errs : List (Nat × ε)),
      accumErrs f i rows = .ok errs →
      ∀ (j : Nat) (r2 : α), rows.get? j = some r2 →
      ∃ es, f (i + j) r2 = .ok es ∧
        ∀ e : ε, ((i + j, e) ∈ errs ↔ (i + j, e) ∈ es) := by
  intro rows
  induction rows with
  | nil =>
    intro i errs h j r2 hj
    simp at hj
  | cons r rest ih =>
    intro i errs h j r2 hj
    simp only [accumErrs] at h
    split at h
    · exact Except.noConfusion h
    · rename_i es hes
      split at h
      · exact Except.noConfusion h
      · rename_i rest2 hrest
        injection h with h
        subst h
        cases j with
        | zero =>
          simp only [List.get?_cons_zero, Option.some.injEq] at hj
          subst hj
          refine ⟨es, by simpa using hes, ?_⟩
          intro e
          simp only [Nat.add_zero, List.mem_append]
          constructor
          · rintro (hm | hm)
            · exact hm
            · have := accumErrs_index_ge f hf rest (i + 1) rest2 hrest (i, e) hm
              omega
          · intro hm
            exact Or.inl hm
        | succ j2 =>
          have hj2 : rest.get? j2 = some r2 := by simpa using hj
          obtain ⟨es2, hes2, hmem⟩ := ih (i + 1) rest2 hrest j2 r2 hj2
          have hidx : i + (j2 + 1) = (i + 1) + j2 := by omega
          rw [hidx]
          refine ⟨es2, hes2, ?_⟩
          intro e
          rw [List.mem_append]
          constructor
          · rintro (hm | hm)
            · have := hf i r es hes ((i + 1) + j2, e) hm
              omega
            · exact (hmem e).mp hm
          · intro hm
            exact Or.inr ((hmem e).mpr hm)

lemma funcRowErrs_index (i : Nat) (r : FuncETLRowOut)
    (es : List (Nat × FuncErr)) (h : funcRowErrs i r = .ok es) :
    ∀ p ∈ es, p.1 = i := by
  intro p hp
  simp only [funcRowErrs] at h
  split at h
  · exact Except.noConfusion h
  · injection h with h
    subst h
    rcases List.mem_append.mp hp with hp | hp
    · rcases List.mem_append.mp hp with hp | hp
      · rw [mem_ite_singleton hp]
      · rw [mem_ite_singleton hp]
    · rw [mem_ite_singleton hp]

lemma mem_ite_singleton_self {γ : Type} {c : Prop} [Decidable c] {x : γ} :
    (x ∈ if c then [x] else ([] : List γ)) ↔ c := by
  split_ifs with hc
  · simp [hc]
  · simp [hc]

lemma funcRowErrs_char (i : Nat) (r : FuncETLRowOut)
    (es : List (Nat × FuncErr)) (h : funcRowErrs i r = .ok es) :
    (((i, FuncErr.cpfInvalido) ∈ es) ↔ cpfErrCond r = true) ∧
    (((i, FuncErr.emailInvalido) ∈ es) ↔ emailErrCond r = true) ∧
    (∃ b, validate_date_range r.dataAdmissao r.dataDemissao = .ok b ∧
      (((i, FuncErr.dataDemissaoAnterior) ∈ es) ↔ b = false)) := by
  simp only [funcRowErrs] at h
  split at h
  · exact Except.noConfusion h
  · rename_i b hb
    injection h with h
    subst h
    refine ⟨?_, ?_, b, hb, ?_⟩
    · constructor
      · intro hp
        rcases List.mem_append.mp hp with hp | hp
        · rcases List.mem_append.mp hp with hp | hp
          · exact mem_ite_singleton_self.mp hp
          · have := mem_ite_singleton hp
            simp at this
        · have := mem_ite_singleton hp
          simp at this
      · intro hc
        exact List.mem_append.mpr (Or.inl (List.mem_append.mpr
          (Or.inl (mem_ite_singleton_self.mpr hc))))
    · constructor
      · intro hp
        rcases List.mem_append.mp hp with hp | hp
        · rcases List.mem_append.mp hp with hp | hp
          · have := mem_ite_singleton hp
            simp at this
          · exact mem_ite_singleton_self.mp hp
        · have := mem_ite_singleton hp
          simp at this
      · intro hc
        exact List.mem_append.mpr (Or.inl (List.mem_append.mpr
          (Or.inr (mem_ite_singleton_self.mpr hc))))
    · constructor
      · intro hp
        rcases List.mem_append.mp hp with hp | hp
        · rcases List.mem_append.mp hp with hp | hp
          · have := mem_ite_singleton hp
            simp at this
          · have := mem_ite_singleton hp
            simp at this
        · have hx := mem_ite_singleton_self.mp hp
          simpa using hx
      · intro hbv
        refine List.mem_append.mpr (Or.inr (mem_ite_singleton_self.mpr ?_))
        simp [hbv]

lemma absRowErrs_index (i : Nat) (r : AbsETLRowOut)
    (es : List (Nat × AbsErr)) (h : absRowErrs i r = .ok es) :
    ∀ p ∈ es, p.1 = i := by
  intro p hp
  simp only [absRowErrs] at h
  split at h
  · exact Except.noConfusion h
  · injection h with h
    subst h
    rcases List.mem_append.mp hp with hp | hp
    · rw [mem_ite_singleton hp]
    · rw [mem_ite_singleton hp]

lemma absRowErrs_char (i : Nat) (r : AbsETLRowOut)
    (es : List (Nat × AbsErr)) (h : absRowErrs i r = .ok es) :
    (∃ b, validate_date_range r.dataInicio r.dataFim = .ok b ∧
      (((i, AbsErr.dataFimAnterior) ∈ es) ↔ b = false)) ∧
    (((i, AbsErr.diasNegativos) ∈ es) ↔ diasNegCond r = true) := by
  simp only [absRowErrs] at h
  split at h
  · exact Except.noConfusion h
  · rename_i b hb
    injection h with h
    subst h
    refine ⟨⟨b, hb, ?_⟩, ?_⟩
    · constructor
      · intro hp
        rcases List.mem_append.mp hp with hp | hp
        · have hx := mem_ite_singleton_self.mp hp
          simpa using hx
        · have := mem_ite_singleton hp
          simp at this
      · intro hbv
        refine List.mem_append.mpr (Or.inl (mem_ite_singleton_self.mpr ?_))
        simp [hbv]
    · constructor
      · intro hp
        rcases List.mem_append.mp hp with hp | hp
        · have := mem_ite_singleton hp
          simp at this
        · exact mem_ite_singleton_self.mp hp
      · intro hc
        exact List.mem_append.mpr (Or.inr (mem_ite_singleton_self.mpr hc))

/-- An employee row whose termination date precedes its admission date
(inverted range), with every other field absent. -/
def funcRowInverted : FuncETLRow :=
  { cpf := none, email := none, dataNascimento := none,
    dataAdmissao := some (ofString "10/05/2024"),
    dataDemissao := some (ofString "01/01/2024") }

/-- An absence row with an inverted date range and all the fields the
`dropna` step requires present. -/
def absEtlRowInverted : AbsETLRow :=
  { dataInicio := some (ofString "10/05/2024"),
    dataFim := some (ofString "01/01/2024"),
    sexo := some 1, tipoAtestado := some 1, diasAfastados := some 3 }

/-- C5 counterexample: in both ETLs a row failing the date-order rule has
its error recorded in the returned error list but is NOT excluded from
the returned output — `FuncionarioETL` returns the row, and
`AbsenteismoETL`'s `dropna` keeps it because its required fields are
present.  This refutes the claim that a validation failure excludes the
row from the clean output. -/
theorem etl_error_rows_not_excluded :
    funcionarioProcessRaw [funcRowInverted] =
      .ok ([funcTransform funcRowInverted],
           [(0, FuncErr.dataDemissaoAnterior)]) ∧
    absenteismoProcessRaw [absEtlRowInverted] =
      .ok ([absTransform absEtlRowInverted],
           [(0, AbsErr.dataFimAnterior)]) := ⟨rfl, rfl⟩

/-- C5 (amended): the returned error list records exactly the failures
the code's guards check, and the batch continues past them, but a failing
row is NOT excluded from the returned output.  `FuncionarioETL` returns
every input row (transformed); for each row, an invalid-CPF error is
recorded iff the cleaned CPF is non-empty and fails the checksum, an
invalid-email error iff the email is non-empty and fails the pattern,
and an inverted-range error iff both dates compare with the end before
the start.  `AbsenteismoETL` returns exactly the rows whose
`data_inicio_atestado`, `sexo` and `tipo_atestado` are present —
membership is independent of the recorded errors — and records an
inverted-range error and a negative-days error under the analogous
guards.  (A CPF that cleans to the empty string is falsy and records
nothing; an absent start date with a present end date raises inside
`validate_date_range` and aborts the batch, see C9.) -/
theorem etl_errors_recorded_rows_not_excluded :
    (∀ (rows : List FuncETLRow) (out : List FuncETLRowOut)
        (errs : List (Nat × FuncErr)),
      funcionarioProcessRaw rows = .ok (out, errs) →
      out = rows.map funcTransform ∧
      (∀ (j : Nat) (r2 : FuncETLRow), rows.get? j = some r2 →
        (((j, FuncErr.cpfInvalido) ∈ errs) ↔
          cpfErrCond (funcTransform r2) = true) ∧
        (((j, FuncErr.emailInvalido) ∈ errs) ↔
          emailErrCond (funcTransform r2) = true) ∧
        (((j, FuncErr.dataDemissaoAnterior) ∈ errs) ↔
          validate_date_range (funcTransform r2).dataAdmissao
            (funcTransform r2).dataDemissao = .ok false))) ∧
    (∀ (rows : List AbsETLRow) (out : List AbsETLRowOut)
        (errs : List (Nat × AbsErr)),
      absenteismoProcessRaw rows = .ok (out, errs) →
      out = (rows.map absTransform).filter absValidRow ∧
      (∀ (j : Nat) (r2 : AbsETLRow), rows.get? j = some r2 →
        (((j, AbsErr.dataFimAnterior) ∈ errs) ↔
          validate_date_range (absTransform r2).dataInicio
            (absTransform r2).dataFim = .ok false) ∧
        (((j, AbsErr.diasNegativos) ∈ errs) ↔
          diasNegCond (absTransform r2) = true))) := by
  constructor
  · intro rows out errs h
    simp only [funcionarioProcessRaw] at h
    split at h
    · exact Except.noConfusion h
    · rename_i errs0 herrs
      injection h with h
      rw [Prod.mk.injEq] at h
      obtain ⟨hout, herr⟩ := h
      subst hout
      subst herr
      refine ⟨rfl, ?_⟩
      intro j r2 hj
      have hj2 : (rows.map funcTransform).get? j = some (funcTransform r2) := by
        rw [List.get?_map, hj]
        rfl
      obtain ⟨es, hes, hmem⟩ :=
        accumErrs_mem funcRowErrs funcRowErrs_index (rows.map funcTransform)
          0 errs0 herrs j (funcTransform r2) hj2
      rw [Nat.zero_add] at hes hmem
      obtain ⟨hcpf, hemail, b, hb, hdate⟩ :=
        funcRowErrs_char j (funcTransform r2) es hes
      refine ⟨?_, ?_, ?_⟩
      · rw [hmem FuncErr.cpfInvalido]
        exact hcpf
      · rw [hmem FuncErr.emailInvalido]
        exact hemail
      · rw [hmem FuncErr.dataDemissaoAnterior, hdate, hb]
        constructor
        · intro hbf
          rw [hbf]
        · intro hok
          exact Except.ok.inj hok
  · intro rows out errs h
    simp only [absenteismoProcessRaw] at h
    split at h
    · exact Except.noConfusion h
    · rename_i errs0 herrs
      injection h with h
      rw [Prod.mk.injEq] at h
      obtain ⟨hout, herr⟩ := h
      subst hout
      subst herr
      refine ⟨rfl, ?_⟩
      intro j r2 hj
      have hj2 : (rows.map absTransform).get? j = some (absTransform r2) := by
        rw [List.get?_map, hj]
        rfl
      obtain ⟨es, hes, hmem⟩ :=
        accumErrs_mem absRowErrs absRowErrs_index (rows.map absTransform)
          0 errs0 herrs j (absTransform r2) hj2
      rw [Nat.zero_add] at hes hmem
      obtain ⟨⟨b, hb, hdate⟩, hdias⟩ :=
        absRowErrs_char j (absTransform r2) es hes
      refine ⟨?_, ?_⟩
      · rw [hmem AbsErr.dataFimAnterior, hdate, hb]
        constructor
        · intro hbf
          rw [hbf]
        · intro hok
          exact Except.ok.inj hok
      · rw [hmem AbsErr.diasNegativos]
        exact hdias

/-- C5 witness: the amended statement applied to the concrete one-row
batch — the inverted-range error is recorded, and the failing row is
still in the output. -/
theorem etl_errors_recorded_witness :
    [funcTransform funcRowInverted] = [funcRowInverted].map funcTransform ∧
    (((0, FuncErr.dataDemissaoAnterior) ∈
        [(0, FuncErr.dataDemissaoAnterior)]) ↔
      validate_date_range (funcTransform funcRowInverted).dataAdmissao
        (funcTransform funcRowInverted).dataDemissao = .ok false) :=
  ⟨(etl_errors_recorded_rows_not_excluded.1 [funcRowInverted]
      [funcTransform funcRowInverted] [(0, FuncErr.dataDemissaoAnterior)]
      rfl).1,
   ((etl_errors_recorded_rows_not_excluded.1 [funcRowInverted]
      [funcTransform funcRowInverted] [(0, FuncErr.dataDemissaoAnterior)]
      rfl).2 0 funcRowInverted rfl).2.2⟩
